import Mathlib

/-!
# Layered configuration of chamber: `store/config.go`

`Config` wraps a `*viper.Viper`. The Go file itself holds the constructor
`NewConfig`, the typed accessors (`Base`, `KmsKey`, `AwsRegion`, `UsePaths`,
`BaseConfigPath`, `Retries`), `MergeConfig`, `Marshal` and the three
`getConfigVal*` helpers. Everything it calls on `c.vp` belongs to the
libraries it imports (viper, pflag, cast, strconv, os, encoding/json).

The embedding keeps the two apart:

* the methods of `config.go` are translated line by line;
* the part of viper that those methods reach is written out as the small
  layered store it is (flag, environment, merged config, default, in that
  order of precedence), over Go maps kept as association lists;
* what depends on the process or on a decoder (the environment, the JSON and
  properties decoders, number parsing, JSON encoding) and the points where
  viper and cast releases differ are fields of `Runtime`, so every general
  theorem holds for every choice of them.

A Go panic is the `error` side of `Except Panic`.
-/

namespace Store

/-! ## Go values held by the store -/

/-- A finite Go `float64`, by its exact value `mant * 2 ^ exp` (every finite
`float64` is such a number; `5.7` is `6417629469002957 * 2 ^ (-50)`). -/
structure Float64 where
  mant : Int
  exp : Int
deriving DecidableEq, Repr

/-- The `float64` holding the integer `n` exactly (any `n` of at most 53 bits). -/
def Float64.ofInt (n : Int) : Float64 := { mant := n, exp := 0 }

/-- The value rounded toward zero to an integer, as the conversion `int(f)`
rounds. -/
def Float64.trunc (f : Float64) : Int :=
  if 0 ≤ f.exp then f.mant * 2 ^ f.exp.toNat else Int.tdiv f.mant (2 ^ (-f.exp).toNat)

/-- Least value of the 64-bit Go `int`. -/
def intMin : Int := -9223372036854775808

/-- Greatest value of the 64-bit Go `int`. -/
def intMax : Int := 9223372036854775807

/-- An integer as a 64-bit Go `int`: reduced modulo `2 ^ 64` into
`intMin .. intMax`. -/
def wrapInt (n : Int) : Int :=
  (n + 9223372036854775808) % 18446744073709551616 - 9223372036854775808

/-- Dynamic values a top-level key can hold: Go `string`, `bool`, `int`
(64 bits), `float64` (what `encoding/json` yields for a number) and a nested
object (`map[string]interface{}`). The contents of a nested object are not
followed, no setting of `config.go` having a nested key; `null` and arrays
are outside the model. -/
inductive Value where
  | str (s : String)
  | bool (b : Bool)
  | int (n : Int)
  | float (f : Float64)
  | object
deriving DecidableEq, Repr

/-- Dynamic type of a value, as `reflect.TypeOf` tells them apart. -/
inductive Kind where
  | string
  | bool
  | int
  | float64
  | object
deriving DecidableEq, Repr

def Value.kind : Value → Kind
  | .str _ => .string
  | .bool _ => .bool
  | .int _ => .int
  | .float _ => .float64
  | .object => .object

/-- A `*pflag.Flag` as viper reads it: `Changed`, `Value.Type()` and
`Value.String()`. -/
structure Flag where
  changed : Bool
  valueType : String
  valueString : String
deriving DecidableEq, Repr

/-- What the process and the linked libraries supply.

* `lookupEnv` is `os.LookupEnv`.
* `unmarshal ty text` is viper's `unmarshalReader` for config type `ty`: the
  decoded top-level map with its keys already lower-cased (each key once), or
  the decode error.
* `parseInt s` is `strconv.ParseInt(s, 0, 0)`, `parseFloat s` is
  `strconv.ParseFloat(s, 64)`, `none` standing for their error.
* `formatFloat f` is `strconv.FormatFloat(f, 'f', -1, 64)` and `intToFloat n`
  is the conversion `float64(n)`, which rounds above 53 bits.
* `floatToIntOverflow f` is what the conversion `int(f)` yields when the
  truncated value does not fit 64 bits; Go leaves that result to the
  implementation (amd64 gives `intMin`).
* `floatToBool` is `cast.ToBool` on a `float64` (constantly `false` in the
  cast releases that do not know floats, `f != 0` in the later ones).
* `marshalIndent` is `json.MarshalIndent(_, "", "  ")` on the settings map.
* `mergeTypeCheck` tells whether the linked viper's `mergeMaps` keeps the held
  value when the incoming one has another dynamic type (its
  `svType != tvType` branch, present in the 1.0 line, absent from later
  releases).
* `isSetFlagDefault` tells whether `IsSet` sees the value of a bound flag that
  was not changed (it does in the 1.0 line, where `find` has one form only). -/
structure Runtime where
  lookupEnv : String → Option String
  unmarshal : String → String → Except String (List (String × Value))
  parseInt : String → Option Int
  parseFloat : String → Option Float64
  formatFloat : Float64 → String
  intToFloat : Int → Float64
  floatToIntOverflow : Float64 → Int
  floatToBool : Float64 → Bool
  marshalIndent : List (String × Value) → Except String String
  mergeTypeCheck : Bool
  isSetFlagDefault : Bool

/-! ## Strings -/

/-- Go `strings.HasPrefix`. -/
def HasPrefix (s pre : String) : Bool := pre.data.isPrefixOf s.data

/-- Go `strings.ToLower`, on the ASCII letters. -/
def lower (s : String) : String := ⟨s.data.map Char.toLower⟩

/-- Go `os.Getenv`: the empty string when the variable is absent. -/
def Runtime.getenv (rt : Runtime) (key : String) : String :=
  (rt.lookupEnv key).getD ""

/-! ## Go maps as association lists -/

/-- Map read `m[k]`: the first entry under `k`. -/
def lookupKey {α : Type} (k : String) : List (String × α) → Option α
  | [] => none
  | (k1, v) :: m => if k1 = k then some v else lookupKey k m

/-- Map write `m[k] = v`. -/
def putKey {α : Type} (k : String) (v : α) (m : List (String × α)) : List (String × α) :=
  (k, v) :: m.filter (fun e => decide (e.1 ≠ k))

/-- The keys of a map. -/
def keysOf {α : Type} (m : List (String × α)) : List String := m.map Prod.fst

/-! ## spf13/cast -/

/-- Go `strconv.ParseBool`. -/
def parseBool (s : String) : Option Bool :=
  if s ∈ ["1", "t", "T", "TRUE", "true", "True"] then some true
  else if s ∈ ["0", "f", "F", "FALSE", "false", "False"] then some false
  else none

/-- The function `cast.ToString`. -/
def toStringV (rt : Runtime) : Value → String
  | .str s => s
  | .bool b => if b then "true" else "false"
  | .int n => toString n
  | .float f => rt.formatFloat f
  | .object => ""

/-- The function `cast.ToBool`; a failed conversion gives `false`. -/
def toBoolV (rt : Runtime) : Value → Bool
  | .bool b => b
  | .int n => n != 0
  | .str s => (parseBool s).getD false
  | .float f => rt.floatToBool f
  | .object => false

/-- The conversion `int(f)` of a `float64`: the value truncated toward zero
when that fits 64 bits, else what the implementation yields. -/
def floatToInt (rt : Runtime) (f : Float64) : Int :=
  if intMin ≤ f.trunc ∧ f.trunc ≤ intMax then f.trunc else wrapInt (rt.floatToIntOverflow f)

/-- The function `cast.ToInt`, whose result is a 64-bit `int`; a failed
conversion gives `0`. -/
def toIntV (rt : Runtime) : Value → Int
  | .int n => wrapInt n
  | .float f => floatToInt rt f
  | .str s => wrapInt ((rt.parseInt s).getD 0)
  | .bool b => if b then 1 else 0
  | .object => 0

/-- The function `cast.ToFloat64`; a failed conversion gives `0`. -/
def toFloatV (rt : Runtime) : Value → Float64
  | .float f => f
  | .int n => rt.intToFloat n
  | .str s => (rt.parseFloat s).getD (Float64.ofInt 0)
  | .bool b => if b then Float64.ofInt 1 else Float64.ofInt 0
  | .object => Float64.ofInt 0

/-- The type switch of `Viper.Get`: convert `val` to the type of `valType`;
the switch has no case for a map, which leaves `val` as it is. -/
def castAs (rt : Runtime) (valType val : Value) : Value :=
  match valType with
  | .bool _ => .bool (toBoolV rt val)
  | .str _ => .str (toStringV rt val)
  | .int _ => .int (toIntV rt val)
  | .float _ => .float (toFloatV rt val)
  | .object => val

/-! ## The part of viper that `Config` reaches

`Set`, aliases, the key/value store and `AutomaticEnv` are never used by
`config.go`, so those layers stay empty and are left out. All setting names are
single path elements (no `.` delimiter), so a key is looked up as it stands. -/

/-- State of a `viper.Viper`. -/
structure Viper where
  typeByDefValue : Bool
  configType : String
  defaults : List (String × Value)
  env : List (String × String)
  pflags : List (String × Flag)
  config : List (String × Value)
deriving DecidableEq, Repr

namespace Viper

/-- The constructor `viper.New()`. -/
def New : Viper :=
  { typeByDefValue := false, configType := "", defaults := [], env := [],
    pflags := [], config := [] }

def SetTypeByDefaultValue (v : Viper) (enable : Bool) : Viper :=
  { v with typeByDefValue := enable }

/-- Two-argument `BindEnv(key, envkey)`. -/
def BindEnv (v : Viper) (key envkey : String) : Viper :=
  { v with env := putKey (lower key) envkey v.env }

def SetDefault (v : Viper) (key : String) (value : Value) : Viper :=
  { v with defaults := putKey (lower key) value v.defaults }

def SetConfigType (v : Viper) (ty : String) : Viper :=
  if ty ≠ "" then { v with configType := ty } else v

/-- `BindPFlag(key, flag)`: a nil flag is an error, else the flag is recorded. -/
def BindPFlag (v : Viper) (key : String) (flag : Option Flag) : Viper × Option String :=
  match flag with
  | none => (v, some ("flag for " ++ key ++ " is nil"))
  | some f => ({ v with pflags := putKey (lower key) f v.pflags }, none)

/-- Value viper reads from a flag, by the flag's type name. A `stringSlice`
flag yields a slice and is outside the model. -/
def flagValue (rt : Runtime) (f : Flag) : Value :=
  if f.valueType ∈ ["int", "int8", "int16", "int32", "int64"] then
    .int (toIntV rt (.str f.valueString))
  else if f.valueType = "bool" then
    .bool (toBoolV rt (.str f.valueString))
  else
    .str f.valueString

/-- `find(lcaseKey, flagDefault)`: a changed flag, then a non-empty bound
environment variable, then the merged config, then the default, and last
(when `flagDefault`) the value of a bound flag that was not changed. -/
def find (rt : Runtime) (v : Viper) (lcaseKey : String) (flagDefault : Bool) : Option Value :=
  match (lookupKey lcaseKey v.pflags).filter (fun f => f.changed) with
  | some f => some (flagValue rt f)
  | none =>
    match (lookupKey lcaseKey v.env).filter (fun envkey => rt.getenv envkey ≠ "") with
    | some envkey => some (.str (rt.getenv envkey))
    | none =>
      match lookupKey lcaseKey v.config with
      | some val => some val
      | none =>
        match lookupKey lcaseKey v.defaults with
        | some val => some val
        | none =>
          if flagDefault then (lookupKey lcaseKey v.pflags).map (flagValue rt) else none

def IsSet (rt : Runtime) (v : Viper) (key : String) : Bool :=
  (find rt v (lower key) rt.isSetFlagDefault).isSome

/-- `Get(key)`: the value found, converted to the type of the key's default
(or to its own type) when `typeByDefValue` is on; `none` is Go `nil`. -/
def Get (rt : Runtime) (v : Viper) (key : String) : Option Value :=
  match find rt v (lower key) true with
  | none => none
  | some val =>
    if v.typeByDefValue then
      match lookupKey (lower key) v.defaults with
      | some defVal => some (castAs rt defVal val)
      | none => some (castAs rt val val)
    else some val

/-- One round of the loop of `mergeMaps(src, tgt, nil)`. An absent key is
added. For a held key: when the type check is on and the two values differ in
dynamic type, the held value stays; a held nested object is merged with an
incoming object and stays as it is when the incoming value is no object; any
other held value is overwritten. -/
def mergeEntry (typeCheck : Bool) (tgt : List (String × Value)) (e : String × Value) :
    List (String × Value) :=
  match lookupKey e.1 tgt with
  | none => putKey e.1 e.2 tgt
  | some tv =>
    if typeCheck && decide (e.2.kind ≠ tv.kind) then tgt
    else
      match tv, e.2 with
      | .object, .object => putKey e.1 .object tgt
      | .object, _ => tgt
      | _, sv => putKey e.1 sv tgt

def mergeMaps (typeCheck : Bool) (src tgt : List (String × Value)) : List (String × Value) :=
  src.foldl (mergeEntry typeCheck) tgt

/-- `MergeConfig(in)`: decode into a fresh map; on error return it and leave
the store alone, else merge the map into the config layer. -/
def MergeConfig (rt : Runtime) (v : Viper) (text : String) : Viper × Option String :=
  match rt.unmarshal v.configType text with
  | .error err => (v, some err)
  | .ok cfg => ({ v with config := mergeMaps rt.mergeTypeCheck cfg v.config }, none)

/-- `AllKeys()`: every key some layer knows. -/
def AllKeys (v : Viper) : List String :=
  (keysOf v.pflags ++ keysOf v.env ++ keysOf v.config ++ keysOf v.defaults).dedup

/-- `AllSettings()`: each key with the value `Get` gives it, nil values skipped. -/
def AllSettings (rt : Runtime) (v : Viper) : List (String × Value) :=
  (AllKeys v).filterMap (fun k => (Get rt v k).map (fun val => (k, val)))

end Viper

/-! ## `config.go` -/

def ConfigBase : String := "base"
def ConfigKmsKey : String := "kms-key"
def ConfigAwsRegion : String := "aws-region"
def ConfigUsePaths : String := "use-paths"
def ConfigSkipBaseConfig : String := "skip-base-config"
def ConfigRetries : String := "retries"

/-- The six setting names of the `const` block. -/
def settingNames : List String :=
  [ConfigBase, ConfigKmsKey, ConfigAwsRegion, ConfigUsePaths, ConfigSkipBaseConfig, ConfigRetries]

/-- Consume exactly `n` characters of the class `[A-Za-z0-9]`. -/
def takeAlnum : Nat → List Char → Option (List Char)
  | 0, cs => some cs
  | _ + 1, [] => none
  | n + 1, c :: cs => if c.isAlphanum then takeAlnum n cs else none

/-- Match `^G-G-...-G$` where each `G` is `[A-Za-z0-9]{n}` for the next length
`n` of the list. -/
def matchGroups : List Nat → List Char → Bool
  | [], _ => false
  | [n], cs => takeAlnum n cs = some []
  | n :: ns, cs =>
    match takeAlnum n cs with
    | some (c :: rest) => c = '-' && matchGroups ns rest
    | _ => false

/-- The pattern
`^[A-Za-z0-9]{8}-[A-Za-z0-9]{4}-[A-Za-z0-9]{4}-[A-Za-z0-9]{4}-[A-Za-z0-9]{12}$`,
kept as the lengths of its groups. -/
def looksLikeKmsKeyId : List Nat := [8, 4, 4, 4, 12]

/-- The method `Regexp.MatchString` for patterns of that form. -/
def MatchString (re : List Nat) (s : String) : Bool := matchGroups re s.data

structure Config where
  vp : Viper
deriving DecidableEq, Repr

/-- The two ways an accessor panics: the explicit `panic` of `getConfigVal`
with its message, and a failed type assertion `i.(T)`. -/
inductive Panic where
  | message (msg : String)
  | typeAssertion
deriving DecidableEq, Repr

def NewConfig (rt : Runtime) : Config :=
  let vp := Viper.New
  let vp := vp.SetTypeByDefaultValue true
  let vp := vp.BindEnv ConfigBase "CHAMBER_BASE"
  let vp := vp.SetDefault ConfigKmsKey (.str "alias/parameter_store_key")
  let vp :=
    if (rt.lookupEnv "CHAMBER_KMS_KEY").isSome then
      vp.BindEnv ConfigKmsKey "CHAMBER_KMS_KEY"
    else
      vp.BindEnv ConfigKmsKey "CHAMBER_KMS_KEY_ALIAS"
  let vp := vp.BindEnv ConfigAwsRegion "CHAMBER_AWS_REGION"
  let vp := vp.SetDefault ConfigUsePaths (.bool false)
  let vp := vp.BindEnv ConfigUsePaths "CHAMBER_USE_PATHS"
  let vp := vp.SetDefault ConfigSkipBaseConfig (.bool false)
  let vp := vp.BindEnv ConfigSkipBaseConfig "CHAMBER_SKIP_BASE_CONFIG"
  let vp := vp.SetDefault ConfigRetries (.int 10)
  let vp := vp.BindEnv ConfigRetries "CHAMBER_RETRIES"
  { vp := vp }

def BindPFlag (c : Config) (name : String) (flag : Option Flag) : Config × Option String :=
  let r := c.vp.BindPFlag name flag
  ({ vp := r.1 }, r.2)

def getConfigVal (rt : Runtime) (c : Config) (name : String) (required : Bool) :
    Except Panic (Option Value × Bool) :=
  if c.vp.IsSet rt name then
    .ok (c.vp.Get rt name, true)
  else if required then
    .error (.message (name ++ " config option should have had a default"))
  else
    .ok (none, false)

def getConfigValOptional (rt : Runtime) (c : Config) (name : String) :
    Except Panic (Option Value × Bool) :=
  getConfigVal rt c name false

def getConfigValRequired (rt : Runtime) (c : Config) (name : String) :
    Except Panic (Option Value) :=
  match getConfigVal rt c name true with
  | .error p => .error p
  | .ok r => .ok r.1

/-- Type assertion `i.(string)`. -/
def assertString : Option Value → Except Panic String
  | some (.str s) => .ok s
  | _ => .error .typeAssertion

/-- Type assertion `i.(bool)`. -/
def assertBool : Option Value → Except Panic Bool
  | some (.bool b) => .ok b
  | _ => .error .typeAssertion

/-- Type assertion `i.(int)`. -/
def assertInt : Option Value → Except Panic Int
  | some (.int n) => .ok n
  | _ => .error .typeAssertion

def Base (rt : Runtime) (c : Config) : Except Panic (String × Bool) :=
  match getConfigValOptional rt c ConfigBase with
  | .error p => .error p
  | .ok (i, ok) =>
    if ok then
      match assertString i with
      | .error p => .error p
      | .ok v => .ok (v, v != "")
    else
      .ok ("", false)

/-- The branches of `KmsKey` on the string read from the store. -/
def kmsKeyForm (key : String) : String :=
  if HasPrefix key "arn:aws:kms:" then key
  else if MatchString looksLikeKmsKeyId key then key
  else if !HasPrefix key "alias/" then "alias/" ++ key
  else key

def KmsKey (rt : Runtime) (c : Config) : Except Panic String :=
  match getConfigValRequired rt c ConfigKmsKey with
  | .error p => .error p
  | .ok i =>
    match assertString i with
    | .error p => .error p
    | .ok key => .ok (kmsKeyForm key)

def AwsRegion (rt : Runtime) (c : Config) : Except Panic (String × Bool) :=
  match getConfigValOptional rt c ConfigAwsRegion with
  | .error p => .error p
  | .ok (i, ok) =>
    if ok then
      match assertString i with
      | .error p => .error p
      | .ok v => .ok (v, true)
    else
      .ok ("", false)

def UsePaths (rt : Runtime) (c : Config) : Except Panic Bool :=
  match getConfigValRequired rt c ConfigUsePaths with
  | .error p => .error p
  | .ok i => assertBool i

def BaseConfigPath (rt : Runtime) (c : Config) : Except Panic String :=
  match Base rt c with
  | .error p => .error p
  | .ok (base, ok) =>
    match getConfigValRequired rt c ConfigSkipBaseConfig with
    | .error p => .error p
    | .ok i =>
      match assertBool i with
      | .error p => .error p
      | .ok skip => if skip || !ok then .ok "" else .ok base

def Retries (rt : Runtime) (c : Config) : Except Panic Int :=
  match getConfigValRequired rt c ConfigRetries with
  | .error p => .error p
  | .ok i => assertInt i

def MergeConfig (rt : Runtime) (c : Config) (config : String) : Config × Option String :=
  let vp :=
    if HasPrefix config "\x7b" then
      c.vp.SetConfigType "json"
    else
      c.vp.SetConfigType "properties"
  let r := vp.MergeConfig rt config
  ({ vp := r.1 }, r.2)

def Marshal (rt : Runtime) (c : Config) : Except String String :=
  rt.marshalIndent (c.vp.AllSettings rt)

/-! ## Reachable states -/

/-- Configurations a program can hold: built by `NewConfig`, then changed by
`BindPFlag` and `MergeConfig` only. -/
inductive Reachable (rt : Runtime) : Config → Prop where
  | init : Reachable rt (NewConfig rt)
  | bind (c : Config) (name : String) (flag : Option Flag) :
      Reachable rt c → Reachable rt (BindPFlag c name flag).1
  | merge (c : Config) (config : String) :
      Reachable rt c → Reachable rt (MergeConfig rt c config).1

/-! ## Notions of the specification, for comparison with the code -/

/-- The key-ID shape as the specification words it: five groups of 8, 4, 4, 4
and 12 alphanumeric characters, separated by `-`. -/
def SpecKeyIdShape (k : String) : Prop :=
  ∃ g1 g2 g3 g4 g5 : List Char,
    k.data = g1 ++ '-' :: (g2 ++ '-' :: (g3 ++ '-' :: (g4 ++ '-' :: g5))) ∧
    g1.length = 8 ∧ g2.length = 4 ∧ g3.length = 4 ∧ g4.length = 4 ∧ g5.length = 12 ∧
    ∀ c ∈ g1 ++ g2 ++ g3 ++ g4 ++ g5, c.isAlphanum = true

/-- The detection rule as the specification words it: the input with its
leading white space removed begins with an opening brace. -/
def specDetectsJson (config : String) : Bool :=
  (config.data.dropWhile Char.isWhitespace).head? = some '\x7b'

/-! ## What `NewConfig` declares -/

/-- The defaults `NewConfig` declares. -/
def declaredDefaults : List (String × Value) :=
  [("retries", .int 10), ("skip-base-config", .bool false), ("use-paths", .bool false),
    ("kms-key", .str "alias/parameter_store_key")]

/-- The environment bindings `NewConfig` declares, `kmsVar` being the variable
chosen for `kms-key`. -/
def declaredEnv (kmsVar : String) : List (String × String) :=
  [("retries", "CHAMBER_RETRIES"), ("skip-base-config", "CHAMBER_SKIP_BASE_CONFIG"),
    ("use-paths", "CHAMBER_USE_PATHS"), ("aws-region", "CHAMBER_AWS_REGION"),
    ("kms-key", kmsVar), ("base", "CHAMBER_BASE")]

/-! ## A concrete runtime for examples -/

deriving instance DecidableEq for Except

/-- Value of a non-empty string of decimal digits. -/
def parseDigits (cs : List Char) : Option Nat :=
  if cs ≠ [] ∧ cs.all Char.isDigit then
    some (cs.foldl (fun n c => 10 * n + (c.toNat - 48)) 0)
  else none

/-- Decoder outcomes on the texts the examples below use (what
`encoding/json` and the properties decoder give on them); every other text is
reported as a decode error. -/
def exampleUnmarshal (ty text : String) : Except String (List (String × Value)) :=
  if ty = "json" then
    if text = "\x7b\"retries\": 5\x7d" then .ok [("retries", .float (Float64.ofInt 5))]
    else if text = "\x7b\"retries\": 6\x7d" then .ok [("retries", .float (Float64.ofInt 6))]
    else if text = "\x7b\"retries\": \x7b\"max\": 5\x7d\x7d" then .ok [("retries", .object)]
    else if text = "\x7b\"retries\": 5.7\x7d" then
      .ok [("retries", .float { mant := 6417629469002957, exp := -50 })]
    else if text = "\x7b\"retries\": 9223372036854775808\x7d" then
      .ok [("retries", .float { mant := 1, exp := 63 })]
    else if text = "\x7b\"aws-region\": 5\x7d" then
      .ok [("aws-region", .float (Float64.ofInt 5))]
    else if text = "\x7b\x7d" then .ok []
    else if text = "\x7b\"base\": 5, \"skip-base-config\": true\x7d" then
      .ok [("base", .float (Float64.ofInt 5)), ("skip-base-config", .bool true)]
    else if text = "\x7b\"base\": \"\"\x7d" then .ok [("base", .str "")]
    else .error "invalid JSON"
  else
    if text = "retries=7" then .ok [("retries", .str "7")]
    else .error "invalid properties"

/-- A runtime for the examples: the process environment `environ`, the
example decoder, decimal number parsing, `int(f)` out of range as on amd64,
and the given `mergeMaps` behaviour. -/
def exampleRuntime (environ : List (String × String)) (typeCheck : Bool) : Runtime :=
  { lookupEnv := fun k => lookupKey k environ
    unmarshal := exampleUnmarshal
    parseInt := fun s => (parseDigits s.data).map Int.ofNat
    parseFloat := fun s => (parseDigits s.data).map (fun n => Float64.ofInt (Int.ofNat n))
    formatFloat := fun f => toString f.trunc
    intToFloat := Float64.ofInt
    floatToIntOverflow := fun _ => intMin
    floatToBool := fun _ => false
    marshalIndent := fun m => .ok (toString (m.map (fun e => e.1)))
    mergeTypeCheck := typeCheck
    isSetFlagDefault := true }

/-- A fresh configuration after merging the given texts in order. -/
def mergeAll (rt : Runtime) (texts : List String) : Config :=
  texts.foldl (fun c text => (MergeConfig rt c text).1) (NewConfig rt)

/-! ## The key-ID pattern -/

theorem takeAlnum_eq_some (n : Nat) (cs r : List Char) :
    takeAlnum n cs = some r ↔
      ∃ g, cs = g ++ r ∧ g.length = n ∧ ∀ c ∈ g, c.isAlphanum = true := by
  induction n generalizing cs with
  | zero =>
    simp only [takeAlnum, Option.some.injEq]
    constructor
    · intro h
      exact ⟨[], by simp [h], rfl, by simp⟩
    · rintro ⟨g, hg, hlen, -⟩
      have : g = [] := List.length_eq_zero.mp hlen
      subst this
      simpa using hg
  | succ n ih =>
    cases cs with
    | nil =>
      simp only [takeAlnum]
      constructor
      · intro h
        cases h
      · rintro ⟨g, hg, hlen, -⟩
        cases g with
        | nil => simp at hlen
        | cons a g => simp at hg
    | cons c cs =>
      simp only [takeAlnum]
      constructor
      · intro h
        split at h
        · rename_i hc
          obtain ⟨g, hg, hlen, hall⟩ := (ih cs).mp h
          refine ⟨c :: g, by simp [hg], by simp [hlen], ?_⟩
          intro x hx
          rcases List.mem_cons.mp hx with rfl | hx
          · exact hc
          · exact hall x hx
        · cases h
      · rintro ⟨g, hg, hlen, hall⟩
        cases g with
        | nil => simp at hlen
        | cons a g =>
          simp only [List.cons_append, List.cons.injEq] at hg
          obtain ⟨rfl, hg⟩ := hg
          have hc : c.isAlphanum = true := hall c (List.mem_cons_self _ _)
          rw [if_pos hc]
          apply (ih cs).mpr
          refine ⟨g, hg, by simpa using hlen, ?_⟩
          intro x hx
          exact hall x (List.mem_cons_of_mem _ hx)

theorem matchGroups_single (n : Nat) (cs : List Char) :
    matchGroups [n] cs = true ↔ cs.length = n ∧ ∀ c ∈ cs, c.isAlphanum = true := by
  simp only [matchGroups, decide_eq_true_eq, takeAlnum_eq_some, List.append_nil]
  constructor
  · rintro ⟨g, rfl, hlen, hall⟩
    exact ⟨hlen, hall⟩
  · rintro ⟨hlen, hall⟩
    exact ⟨cs, rfl, hlen, hall⟩

theorem matchGroups_step (n m : Nat) (ns : List Nat) (cs : List Char) :
    matchGroups (n :: m :: ns) cs = true ↔
      ∃ g rest, cs = g ++ '-' :: rest ∧ g.length = n ∧ (∀ c ∈ g, c.isAlphanum = true) ∧
        matchGroups (m :: ns) rest = true := by
  rw [matchGroups]
  swap
  · intro h
    cases h
  constructor
  · intro h
    split at h
    · rename_i c rest htake
      simp only [Bool.and_eq_true, decide_eq_true_eq] at h
      obtain ⟨rfl, hrest⟩ := h
      obtain ⟨g, hg, hlen, hall⟩ := (takeAlnum_eq_some n cs _).mp htake
      exact ⟨g, rest, hg, hlen, hall, hrest⟩
    · cases h
  · rintro ⟨g, rest, hg, hlen, hall, hrest⟩
    have htake : takeAlnum n cs = some ('-' :: rest) :=
      (takeAlnum_eq_some n cs _).mpr ⟨g, hg, hlen, hall⟩
    rw [htake]
    simp [hrest]

theorem MatchString_iff_shape (k : String) :
    MatchString looksLikeKmsKeyId k = true ↔ SpecKeyIdShape k := by
  unfold MatchString looksLikeKmsKeyId SpecKeyIdShape
  constructor
  · intro h
    obtain ⟨g1, r1, h1, l1, a1, h⟩ := (matchGroups_step _ _ _ _).mp h
    obtain ⟨g2, r2, h2, l2, a2, h⟩ := (matchGroups_step _ _ _ _).mp h
    obtain ⟨g3, r3, h3, l3, a3, h⟩ := (matchGroups_step _ _ _ _).mp h
    obtain ⟨g4, r4, h4, l4, a4, h⟩ := (matchGroups_step _ _ _ _).mp h
    obtain ⟨l5, a5⟩ := (matchGroups_single _ _).mp h
    refine ⟨g1, g2, g3, g4, r4, ?_, l1, l2, l3, l4, l5, ?_⟩
    · rw [h1, h2, h3, h4]
    · intro c hc
      simp only [List.mem_append] at hc
      rcases hc with (((hc | hc) | hc) | hc) | hc
      · exact a1 c hc
      · exact a2 c hc
      · exact a3 c hc
      · exact a4 c hc
      · exact a5 c hc
  · rintro ⟨g1, g2, g3, g4, g5, hk, l1, l2, l3, l4, l5, hall⟩
    have hmem : ∀ g : List Char, (∀ c ∈ g, c ∈ g1 ++ g2 ++ g3 ++ g4 ++ g5) →
        ∀ c ∈ g, c.isAlphanum = true := fun g hg c hc => hall c (hg c hc)
    refine (matchGroups_step _ _ _ _).mpr ⟨g1, _, hk, l1, hmem g1 (by simp +contextual), ?_⟩
    refine (matchGroups_step _ _ _ _).mpr ⟨g2, _, rfl, l2, hmem g2 (by simp +contextual), ?_⟩
    refine (matchGroups_step _ _ _ _).mpr ⟨g3, _, rfl, l3, hmem g3 (by simp +contextual), ?_⟩
    refine (matchGroups_step _ _ _ _).mpr ⟨g4, _, rfl, l4, hmem g4 (by simp +contextual), ?_⟩
    exact (matchGroups_single _ _).mpr ⟨l5, hmem g5 (by simp +contextual)⟩

theorem alias_not_arn (t : List Char) :
    ("arn:aws:kms:".data).isPrefixOf ("alias/".data ++ t) = false := by
  simp [List.isPrefixOf]

theorem alias_not_keyId (t : List Char) :
    matchGroups looksLikeKmsKeyId ("alias/".data ++ t) = false := by
  simp [looksLikeKmsKeyId, matchGroups, takeAlnum]

theorem alias_is_alias (t : List Char) :
    ("alias/".data).isPrefixOf ("alias/".data ++ t) = true := by
  simp [List.isPrefixOf]

theorem data_of_HasPrefix (k pre : String) (h : HasPrefix k pre = true) :
    ∃ t, k.data = pre.data ++ t := by
  unfold HasPrefix at h
  obtain ⟨t, ht⟩ := List.isPrefixOf_iff_prefix.mp h
  exact ⟨t, ht.symm⟩

theorem kmsKeyForm_of_alias (k : String) (h : HasPrefix k "alias/" = true) :
    HasPrefix k "arn:aws:kms:" = false ∧ MatchString looksLikeKmsKeyId k = false := by
  obtain ⟨t, ht⟩ := data_of_HasPrefix k _ h
  unfold HasPrefix MatchString
  rw [ht]
  exact ⟨alias_not_arn t, alias_not_keyId t⟩

theorem kmsKeyForm_idem (k : String) : kmsKeyForm (kmsKeyForm k) = kmsKeyForm k := by
  by_cases harn : HasPrefix k "arn:aws:kms:" = true
  · simp [kmsKeyForm, harn]
  · by_cases hid : MatchString looksLikeKmsKeyId k = true
    · simp [kmsKeyForm, harn, hid]
    · by_cases hal : HasPrefix k "alias/" = true
      · simp [kmsKeyForm, harn, hid, hal]
      · have h1 : HasPrefix ("alias/" ++ k) "alias/" = true := by
          simp only [HasPrefix, String.data_append]
          exact alias_is_alias _
        have h2 := kmsKeyForm_of_alias _ h1
        simp [kmsKeyForm, harn, hid, hal, h1, h2.1, h2.2]

/-! ## Association lists -/

theorem lookupKey_filter_ne {α : Type} (k j : String) (m : List (String × α)) (h : j ≠ k) :
    lookupKey j (m.filter (fun e => decide (e.1 ≠ k))) = lookupKey j m := by
  induction m with
  | nil => rfl
  | cons e m ih =>
    obtain ⟨k1, v⟩ := e
    rw [List.filter_cons]
    by_cases hk : k1 = k
    · subst hk
      have hj : ¬ k1 = j := fun h2 => h h2.symm
      have hd : decide ((k1, v).1 ≠ k1) = false := by simp
      rw [hd]
      simp only [Bool.false_eq_true, if_false, lookupKey, hj]
      exact ih
    · have hd : decide ((k1, v).1 ≠ k) = true := by simpa using hk
      rw [hd]
      simp only [if_true, lookupKey]
      rw [ih]

theorem lookupKey_putKey_self {α : Type} (k : String) (v : α) (m : List (String × α)) :
    lookupKey k (putKey k v m) = some v := by
  simp [putKey, lookupKey]

theorem lookupKey_putKey_ne {α : Type} (k j : String) (v : α) (m : List (String × α))
    (h : j ≠ k) : lookupKey j (putKey k v m) = lookupKey j m := by
  have hk : ¬ k = j := fun h2 => h h2.symm
  unfold putKey
  simp only [lookupKey, hk, if_false]
  exact lookupKey_filter_ne k j m h

theorem lookupKey_mergeEntry_ne (tc : Bool) (tgt : List (String × Value)) (e : String × Value)
    (j : String) (h : j ≠ e.1) :
    lookupKey j (Viper.mergeEntry tc tgt e) = lookupKey j tgt := by
  unfold Viper.mergeEntry
  split
  · exact lookupKey_putKey_ne _ _ _ _ h
  · split
    · rfl
    · split
      · exact lookupKey_putKey_ne _ _ _ _ h
      · rfl
      · exact lookupKey_putKey_ne _ _ _ _ h

theorem lookupKey_mergeMaps_frame (tc : Bool) (src tgt : List (String × Value)) (j : String)
    (h : j ∉ keysOf src) :
    lookupKey j (Viper.mergeMaps tc src tgt) = lookupKey j tgt := by
  induction src generalizing tgt with
  | nil => rfl
  | cons e src ih =>
    simp only [keysOf, List.map_cons, List.mem_cons, not_or] at h
    simp only [Viper.mergeMaps, List.foldl_cons]
    have := ih (Viper.mergeEntry tc tgt e) (by simpa [keysOf] using h.2)
    simp only [Viper.mergeMaps] at this
    rw [this]
    exact lookupKey_mergeEntry_ne tc tgt e j h.1

theorem lookupKey_mergeEntry_self (tc : Bool) (tgt : List (String × Value)) (k : String)
    (v : Value)
    (h : ∀ tv, lookupKey k tgt = some tv →
      (tc = true → tv.kind = v.kind) ∧ (tv = .object → v = .object)) :
    lookupKey k (Viper.mergeEntry tc tgt (k, v)) = some v := by
  unfold Viper.mergeEntry
  cases htv : lookupKey k tgt with
  | none => exact lookupKey_putKey_self _ _ _
  | some tv =>
    obtain ⟨hkind, hobj⟩ := h tv htv
    have hskip : ¬ (tc && decide (v.kind ≠ tv.kind)) = true := by
      intro hs
      simp only [Bool.and_eq_true, decide_eq_true_eq] at hs
      exact hs.2 (hkind hs.1).symm
    simp only [if_neg hskip]
    cases tv with
    | object =>
      rw [hobj rfl]
      exact lookupKey_putKey_self _ _ _
    | str s => exact lookupKey_putKey_self _ _ _
    | bool b => exact lookupKey_putKey_self _ _ _
    | int n => exact lookupKey_putKey_self _ _ _
    | float n => exact lookupKey_putKey_self _ _ _

theorem lookupKey_mergeMaps_mem (tc : Bool) (src tgt : List (String × Value)) (k : String)
    (v : Value) (hnodup : (keysOf src).Nodup) (hk : (k, v) ∈ src)
    (h : ∀ tv, lookupKey k tgt = some tv →
      (tc = true → tv.kind = v.kind) ∧ (tv = .object → v = .object)) :
    lookupKey k (Viper.mergeMaps tc src tgt) = some v := by
  induction src generalizing tgt with
  | nil => cases hk
  | cons e src ih =>
    simp only [keysOf, List.map_cons, List.nodup_cons] at hnodup
    simp only [Viper.mergeMaps, List.foldl_cons]
    rcases List.mem_cons.mp hk with rfl | hk
    · have hframe := lookupKey_mergeMaps_frame tc src (Viper.mergeEntry tc tgt (k, v)) k
        (by simpa [keysOf] using hnodup.1)
      simp only [Viper.mergeMaps] at hframe
      rw [hframe]
      exact lookupKey_mergeEntry_self tc tgt k v h
    · have hne : k ≠ e.1 := by
        intro hke
        apply hnodup.1
        rw [← hke]
        exact List.mem_map_of_mem Prod.fst hk
      have := ih (Viper.mergeEntry tc tgt e) hnodup.2 hk (by
        intro tv htv
        rw [lookupKey_mergeEntry_ne tc tgt e k hne] at htv
        exact h tv htv)
      simpa only [Viper.mergeMaps] using this

theorem lookupKey_mergeEntry_kept (tc : Bool) (tgt : List (String × Value)) (k : String)
    (v tv : Value) (htv : lookupKey k tgt = some tv)
    (h : (tc = true ∧ tv.kind ≠ v.kind) ∨ (tv = .object ∧ v ≠ .object)) :
    lookupKey k (Viper.mergeEntry tc tgt (k, v)) = some tv := by
  unfold Viper.mergeEntry
  simp only [htv]
  by_cases hskip : (tc && decide (v.kind ≠ tv.kind)) = true
  · rw [if_pos hskip]
    exact htv
  · rw [if_neg hskip]
    rcases h with ⟨htc, hkind⟩ | ⟨hobj, hv⟩
    · exfalso
      apply hskip
      simp only [Bool.and_eq_true, decide_eq_true_eq]
      exact ⟨htc, fun h2 => hkind h2.symm⟩
    · subst hobj
      cases v with
      | object => exact absurd rfl hv
      | str s => exact htv
      | bool b => exact htv
      | int n => exact htv
      | float n => exact htv

theorem lookupKey_mergeMaps_kept (tc : Bool) (src tgt : List (String × Value)) (k : String)
    (v tv : Value) (hnodup : (keysOf src).Nodup) (hk : (k, v) ∈ src)
    (htv : lookupKey k tgt = some tv)
    (h : (tc = true ∧ tv.kind ≠ v.kind) ∨ (tv = .object ∧ v ≠ .object)) :
    lookupKey k (Viper.mergeMaps tc src tgt) = some tv := by
  induction src generalizing tgt with
  | nil => cases hk
  | cons e src ih =>
    simp only [keysOf, List.map_cons, List.nodup_cons] at hnodup
    simp only [Viper.mergeMaps, List.foldl_cons]
    rcases List.mem_cons.mp hk with rfl | hk
    · have hframe := lookupKey_mergeMaps_frame tc src (Viper.mergeEntry tc tgt (k, v)) k
        (by simpa [keysOf] using hnodup.1)
      simp only [Viper.mergeMaps] at hframe
      rw [hframe]
      exact lookupKey_mergeEntry_kept tc tgt k v tv htv h
    · have hne : k ≠ e.1 := by
        intro hke
        apply hnodup.1
        rw [← hke]
        exact List.mem_map_of_mem Prod.fst hk
      have := ih (Viper.mergeEntry tc tgt e) hnodup.2 hk (by
        rw [lookupKey_mergeEntry_ne tc tgt e k hne]
        exact htv)
      simpa only [Viper.mergeMaps] using this

/-! ## What every reachable configuration keeps -/

theorem NewConfig_vp (rt : Runtime) :
    (NewConfig rt).vp =
      { typeByDefValue := true, configType := "", defaults := declaredDefaults,
        env := declaredEnv (if (rt.lookupEnv "CHAMBER_KMS_KEY").isSome then "CHAMBER_KMS_KEY"
          else "CHAMBER_KMS_KEY_ALIAS"),
        pflags := [], config := [] } := by
  unfold NewConfig
  split <;> decide

theorem NewConfig_defaults (rt : Runtime) : (NewConfig rt).vp.defaults = declaredDefaults := by
  unfold NewConfig
  split <;> decide

theorem NewConfig_typeByDefValue (rt : Runtime) : (NewConfig rt).vp.typeByDefValue = true := by
  unfold NewConfig
  split <;> decide

theorem reachable_defaults (rt : Runtime) (c : Config) (h : Reachable rt c) :
    c.vp.defaults = declaredDefaults ∧ c.vp.typeByDefValue = true := by
  induction h with
  | init => exact ⟨NewConfig_defaults rt, NewConfig_typeByDefValue rt⟩
  | bind c name flag _ ih =>
    cases flag <;> simpa [BindPFlag, Viper.BindPFlag] using ih
  | merge c config _ ih =>
    simp only [MergeConfig, Viper.MergeConfig, Viper.SetConfigType]
    split <;> split <;> simpa using ih

theorem reachable_env (rt : Runtime) (c : Config) (h : Reachable rt c) :
    c.vp.env = (NewConfig rt).vp.env := by
  induction h with
  | init => rfl
  | bind c name flag _ ih =>
    cases flag <;> simpa [BindPFlag, Viper.BindPFlag] using ih
  | merge c config _ ih =>
    simp only [MergeConfig, Viper.MergeConfig, Viper.SetConfigType]
    split <;> split <;> simpa using ih

theorem lookupKey_declaredEnv_kms (x : String) :
    lookupKey ConfigKmsKey (declaredEnv x) = some x := by
  simp [declaredEnv, lookupKey, ConfigKmsKey]

theorem lookupKey_declaredEnv_retries (x : String) :
    lookupKey ConfigRetries (declaredEnv x) = some "CHAMBER_RETRIES" := by
  simp [declaredEnv, lookupKey, ConfigRetries]

theorem lookupKey_declaredEnv_usePaths (x : String) :
    lookupKey ConfigUsePaths (declaredEnv x) = some "CHAMBER_USE_PATHS" := by
  simp [declaredEnv, lookupKey, ConfigUsePaths]

theorem lookupKey_declaredEnv_skip (x : String) :
    lookupKey ConfigSkipBaseConfig (declaredEnv x) = some "CHAMBER_SKIP_BASE_CONFIG" := by
  simp [declaredEnv, lookupKey, ConfigSkipBaseConfig]

/-! ## Resolution through the layers -/

theorem find_congr (rt : Runtime) (v w : Viper) (k : String) (fd : Bool)
    (hp : w.pflags = v.pflags) (he : w.env = v.env) (hd : w.defaults = v.defaults)
    (hc : lookupKey k w.config = lookupKey k v.config) :
    Viper.find rt w k fd = Viper.find rt v k fd := by
  unfold Viper.find
  rw [hp, he, hd, hc]

theorem find_of_default (rt : Runtime) (v : Viper) (k : String) (fd : Bool) (d : Value)
    (hd : lookupKey k v.defaults = some d) :
    Viper.find rt v k fd = Viper.find rt v k true ∧ (Viper.find rt v k true).isSome = true := by
  unfold Viper.find
  rw [hd]
  constructor
  · split
    · rfl
    · split
      · rfl
      · split <;> rfl
  · split
    · rfl
    · split
      · rfl
      · split <;> rfl

/-- A changed flag bound to the key is what the key resolves to. -/
theorem find_flag (rt : Runtime) (v : Viper) (k : String) (fd : Bool) (f : Flag)
    (hf : lookupKey k v.pflags = some f) (hchanged : f.changed = true) :
    Viper.find rt v k fd = some (Viper.flagValue rt f) := by
  unfold Viper.find
  rw [hf]
  simp [Option.filter, hchanged]

/-- With no changed flag, a key whose bound variable is non-empty resolves to
that variable. -/
theorem find_env (rt : Runtime) (v : Viper) (k e : String) (fd : Bool)
    (hflag : ∀ f, lookupKey k v.pflags = some f → f.changed = false)
    (he : lookupKey k v.env = some e) (hne : rt.getenv e ≠ "") :
    Viper.find rt v k fd = some (.str (rt.getenv e)) := by
  unfold Viper.find
  have h1 : (lookupKey k v.pflags).filter (fun f => f.changed) = none := by
    cases hl : lookupKey k v.pflags with
    | none => rfl
    | some f => simp [Option.filter, hflag f hl]
  rw [h1, he]
  simp [Option.filter, hne]

/-- With no changed flag and no non-empty bound variable for it, a key held
by the merged layer resolves to the value held there. -/
theorem find_config (rt : Runtime) (v : Viper) (k : String) (fd : Bool) (val : Value)
    (hflag : ∀ f, lookupKey k v.pflags = some f → f.changed = false)
    (henv : ∀ e, lookupKey k v.env = some e → rt.getenv e = "")
    (hcfg : lookupKey k v.config = some val) :
    Viper.find rt v k fd = some val := by
  unfold Viper.find
  have h1 : (lookupKey k v.pflags).filter (fun f => f.changed) = none := by
    cases hl : lookupKey k v.pflags with
    | none => rfl
    | some f => simp [Option.filter, hflag f hl]
  have h2 : (lookupKey k v.env).filter (fun envkey => rt.getenv envkey ≠ "") = none := by
    cases hl : lookupKey k v.env with
    | none => rfl
    | some e => simp [Option.filter, henv e hl]
  rw [h1, h2, hcfg]

/-- With no changed flag, no non-empty bound variable and nothing merged
under it, a key with a default resolves to the default. -/
theorem find_default (rt : Runtime) (v : Viper) (k : String) (fd : Bool) (d : Value)
    (hflag : ∀ f, lookupKey k v.pflags = some f → f.changed = false)
    (henv : ∀ e, lookupKey k v.env = some e → rt.getenv e = "")
    (hcfg : lookupKey k v.config = none)
    (hdef : lookupKey k v.defaults = some d) :
    Viper.find rt v k fd = some d := by
  unfold Viper.find
  have h1 : (lookupKey k v.pflags).filter (fun f => f.changed) = none := by
    cases hl : lookupKey k v.pflags with
    | none => rfl
    | some f => simp [Option.filter, hflag f hl]
  have h2 : (lookupKey k v.env).filter (fun envkey => rt.getenv envkey ≠ "") = none := by
    cases hl : lookupKey k v.env with
    | none => rfl
    | some e => simp [Option.filter, henv e hl]
  rw [h1, h2, hcfg, hdef]

/-- `IsSet` and `Get` of a key depend on the layers only through the key's
entries, the defaults and `typeByDefValue`. -/
theorem IsSet_Get_congr (rt : Runtime) (v w : Viper) (name : String)
    (hty : w.typeByDefValue = v.typeByDefValue)
    (hp : w.pflags = v.pflags) (he : w.env = v.env) (hd : w.defaults = v.defaults)
    (hc : lookupKey (lower name) w.config = lookupKey (lower name) v.config) :
    w.IsSet rt name = v.IsSet rt name ∧ w.Get rt name = v.Get rt name := by
  unfold Viper.IsSet Viper.Get
  rw [find_congr rt v w (lower name) _ hp he hd hc, find_congr rt v w (lower name) _ hp he hd hc,
    hty, hd]
  exact ⟨rfl, rfl⟩

theorem lower_ConfigBase : lower ConfigBase = "base" := by decide

theorem lower_ConfigKmsKey : lower ConfigKmsKey = "kms-key" := by decide

theorem lower_ConfigAwsRegion : lower ConfigAwsRegion = "aws-region" := by decide

theorem lower_ConfigUsePaths : lower ConfigUsePaths = "use-paths" := by decide

theorem lower_ConfigSkipBaseConfig : lower ConfigSkipBaseConfig = "skip-base-config" := by decide

theorem lower_ConfigRetries : lower ConfigRetries = "retries" := by decide

theorem lower_of_setting (name : String) (h : name ∈ settingNames) : lower name = name := by
  simp only [settingNames, List.mem_cons, List.mem_singleton, List.not_mem_nil, or_false] at h
  rcases h with rfl | rfl | rfl | rfl | rfl | rfl <;> decide

/-! ## Conversions to the 64-bit `int` -/

theorem wrapInt_range (n : Int) : intMin ≤ wrapInt n ∧ wrapInt n ≤ intMax := by
  unfold wrapInt intMin intMax
  omega

theorem wrapInt_of_range (n : Int) (h1 : intMin ≤ n) (h2 : n ≤ intMax) : wrapInt n = n := by
  unfold wrapInt
  unfold intMin at h1
  unfold intMax at h2
  omega

theorem floatToInt_range (rt : Runtime) (f : Float64) :
    intMin ≤ floatToInt rt f ∧ floatToInt rt f ≤ intMax := by
  unfold floatToInt
  split
  · rename_i h
    exact h
  · exact wrapInt_range _

/-- Whatever the value, `cast.ToInt` yields a 64-bit `int`. -/
theorem toIntV_range (rt : Runtime) (v : Value) :
    intMin ≤ toIntV rt v ∧ toIntV rt v ≤ intMax := by
  cases v with
  | str s => exact wrapInt_range _
  | bool b => cases b <;> simp [toIntV, intMin, intMax]
  | int n => exact wrapInt_range _
  | float f => exact floatToInt_range rt f
  | object => simp [toIntV, intMin, intMax]

/-! ## What the accessors read -/

/-- The accessors read the store through `IsSet` and `Get` only. -/
theorem getConfigVal_congr (rt : Runtime) (c d : Config) (name : String) (required : Bool)
    (hset : d.vp.IsSet rt name = c.vp.IsSet rt name)
    (hget : d.vp.Get rt name = c.vp.Get rt name) :
    getConfigVal rt d name required = getConfigVal rt c name required := by
  unfold getConfigVal
  rw [hset, hget]

/-- A setting with a declared default is always set, and the required read
returns the resolved value converted to the type of the default. -/
theorem required_of_default (rt : Runtime) (c : Config) (name : String) (d : Value)
    (hdef : lookupKey (lower name) c.vp.defaults = some d)
    (hty : c.vp.typeByDefValue = true) :
    ∃ val, Viper.find rt c.vp (lower name) true = some val ∧
      c.vp.IsSet rt name = true ∧
      c.vp.Get rt name = some (castAs rt d val) ∧
      getConfigValRequired rt c name = .ok (some (castAs rt d val)) := by
  obtain ⟨h1, h2⟩ := find_of_default rt c.vp (lower name) rt.isSetFlagDefault d hdef
  obtain ⟨val, hval⟩ := Option.isSome_iff_exists.mp h2
  have hset : c.vp.IsSet rt name = true := by
    unfold Viper.IsSet
    rw [h1, h2]
  have hget : c.vp.Get rt name = some (castAs rt d val) := by
    unfold Viper.Get
    rw [hval, hdef, hty]
    rfl
  refine ⟨val, hval, hset, hget, ?_⟩
  unfold getConfigValRequired getConfigVal
  rw [hset, hget]
  rfl

/-- Optional read of a setting that has no declared default. -/
theorem optional_of_find (rt : Runtime) (c : Config) (name : String) (val : Value)
    (hdef : lookupKey (lower name) c.vp.defaults = none)
    (hty : c.vp.typeByDefValue = true)
    (h1 : Viper.find rt c.vp (lower name) true = some val)
    (h2 : Viper.find rt c.vp (lower name) rt.isSetFlagDefault = some val) :
    getConfigValOptional rt c name = .ok (some (castAs rt val val), true) := by
  unfold getConfigValOptional getConfigVal Viper.IsSet Viper.Get
  rw [h1, h2, hdef, hty]
  rfl

/-- Required read of `kms-key`, from the declared defaults alone. -/
theorem KmsKey_of_find (rt : Runtime) (c : Config) (val : Value)
    (hd : c.vp.defaults = declaredDefaults) (hty : c.vp.typeByDefValue = true)
    (hfind : Viper.find rt c.vp ConfigKmsKey true = some val) :
    KmsKey rt c = .ok (kmsKeyForm (toStringV rt val)) := by
  obtain ⟨val2, hval, -, -, hreq⟩ := required_of_default rt c ConfigKmsKey
    (.str "alias/parameter_store_key") (by rw [hd]; decide) hty
  have h2 : Viper.find rt c.vp ConfigKmsKey true = some val2 := by
    simpa [lower_ConfigKmsKey, ConfigKmsKey] using hval
  rw [hfind] at h2
  cases h2
  unfold KmsKey
  rw [hreq]
  rfl

theorem KmsKey_of_reachable (rt : Runtime) (c : Config) (h : Reachable rt c) :
    ∃ val, Viper.find rt c.vp ConfigKmsKey true = some val ∧
      KmsKey rt c = .ok (kmsKeyForm (toStringV rt val)) := by
  obtain ⟨hd, hty⟩ := reachable_defaults rt c h
  obtain ⟨val, hval, -, -, hreq⟩ := required_of_default rt c ConfigKmsKey
    (.str "alias/parameter_store_key") (by rw [hd]; decide) hty
  refine ⟨val, by simpa [lower_ConfigKmsKey, ConfigKmsKey] using hval, ?_⟩
  unfold KmsKey
  rw [hreq]
  rfl

theorem Retries_of_reachable (rt : Runtime) (c : Config) (h : Reachable rt c) :
    ∃ val, Viper.find rt c.vp ConfigRetries true = some val ∧
      Retries rt c = .ok (toIntV rt val) := by
  obtain ⟨hd, hty⟩ := reachable_defaults rt c h
  obtain ⟨val, hval, -, -, hreq⟩ := required_of_default rt c ConfigRetries
    (.int 10) (by rw [hd]; decide) hty
  refine ⟨val, by simpa [lower_ConfigRetries, ConfigRetries] using hval, ?_⟩
  unfold Retries
  rw [hreq]
  rfl

theorem UsePaths_of_reachable (rt : Runtime) (c : Config) (h : Reachable rt c) :
    ∃ val, Viper.find rt c.vp ConfigUsePaths true = some val ∧
      UsePaths rt c = .ok (toBoolV rt val) := by
  obtain ⟨hd, hty⟩ := reachable_defaults rt c h
  obtain ⟨val, hval, -, -, hreq⟩ := required_of_default rt c ConfigUsePaths
    (.bool false) (by rw [hd]; decide) hty
  refine ⟨val, by simpa [lower_ConfigUsePaths, ConfigUsePaths] using hval, ?_⟩
  unfold UsePaths
  rw [hreq]
  rfl

theorem skip_of_reachable (rt : Runtime) (c : Config) (h : Reachable rt c) :
    ∃ val, Viper.find rt c.vp ConfigSkipBaseConfig true = some val ∧
      c.vp.Get rt ConfigSkipBaseConfig = some (.bool (toBoolV rt val)) ∧
      getConfigValRequired rt c ConfigSkipBaseConfig = .ok (some (.bool (toBoolV rt val))) := by
  obtain ⟨hd, hty⟩ := reachable_defaults rt c h
  obtain ⟨val, hval, -, hget, hreq⟩ := required_of_default rt c ConfigSkipBaseConfig
    (.bool false) (by rw [hd]; decide) hty
  exact ⟨val, by simpa [lower_ConfigSkipBaseConfig, ConfigSkipBaseConfig] using hval, hget, hreq⟩

/-- In every reachable configuration `Retries()` returns, and what it returns
is a 64-bit `int`. -/
theorem Retries_range (rt : Runtime) (c : Config) (h : Reachable rt c) :
    ∃ n, Retries rt c = .ok n ∧ intMin ≤ n ∧ n ≤ intMax := by
  obtain ⟨val, -, hret⟩ := Retries_of_reachable rt c h
  exact ⟨toIntV rt val, hret, toIntV_range rt val⟩

/-- What `Base()` returns, by whether `base` is set and what `Get` gives. -/
theorem Base_eq (rt : Runtime) (c : Config) :
    Base rt c =
      if c.vp.IsSet rt ConfigBase then
        match assertString (c.vp.Get rt ConfigBase) with
        | .error p => .error p
        | .ok v => .ok (v, v != "")
      else .ok ("", false) := by
  unfold Base getConfigValOptional getConfigVal
  by_cases h : c.vp.IsSet rt ConfigBase = true
  · simp [h]
  · simp [h]

/-! ## Effect of `MergeConfig` on the store -/

theorem MergeConfig_of_ok (rt : Runtime) (c : Config) (config : String)
    (cfg : List (String × Value))
    (hdec : rt.unmarshal (if HasPrefix config "\x7b" then "json" else "properties") config
      = .ok cfg) :
    (MergeConfig rt c config).2 = none ∧
    (MergeConfig rt c config).1.vp =
      { c.vp with
        configType := if HasPrefix config "\x7b" then "json" else "properties"
        config := Viper.mergeMaps rt.mergeTypeCheck cfg c.vp.config } := by
  unfold MergeConfig Viper.MergeConfig Viper.SetConfigType
  by_cases h : HasPrefix config "\x7b" = true
  · simp only [h, if_true] at hdec ⊢
    simp [hdec]
  · have hf : HasPrefix config "\x7b" = false := by simpa using h
    simp only [hf, Bool.false_eq_true, if_false] at hdec ⊢
    simp [hdec]

theorem MergeConfig_of_error (rt : Runtime) (c : Config) (config err : String)
    (hdec : rt.unmarshal (if HasPrefix config "\x7b" then "json" else "properties") config
      = .error err) :
    (MergeConfig rt c config).2 = some err ∧
    (MergeConfig rt c config).1.vp =
      { c.vp with configType := if HasPrefix config "\x7b" then "json" else "properties" } := by
  unfold MergeConfig Viper.MergeConfig Viper.SetConfigType
  by_cases h : HasPrefix config "\x7b" = true
  · simp only [h, if_true] at hdec ⊢
    simp [hdec]
  · have hf : HasPrefix config "\x7b" = false := by simpa using h
    simp only [hf, Bool.false_eq_true, if_false] at hdec ⊢
    simp [hdec]

/-- The type check of `mergeMaps` at work: after `{"retries": 5}`, the
properties text `retries=7` is merged without error; a viper that checks
types keeps the number 5, one that does not takes the string 7. -/
theorem mergeMaps_type_check_example :
    Retries (exampleRuntime [] true)
      (mergeAll (exampleRuntime [] true) ["\x7b\"retries\": 5\x7d", "retries=7"]) = .ok 5 ∧
    Retries (exampleRuntime [] false)
      (mergeAll (exampleRuntime [] false) ["\x7b\"retries\": 5\x7d", "retries=7"]) = .ok 7 ∧
    Retries (exampleRuntime [] true) (mergeAll (exampleRuntime [] true) ["retries=7"]) = .ok 7 := by
  decide

/-! ## The claims -/

/-- C1: in every reachable configuration whose stored kms-key value is the
string `k`, `KmsKey()` returns the result of the four ordered rules, first
match wins: `k` when it starts with `arn:aws:kms:`; else `k` when it has the
8-4-4-4-12 shape of alphanumeric groups separated by `-`; else `alias/` put
before `k` when `k` does not start with `alias/`; else `k`. With the value
coming from `CHAMBER_KMS_KEY`, `abc` gives `alias/abc`, `alias/abc` gives
`alias/abc`, and the ARN and the bare key ID are returned unchanged. -/
theorem KmsKey_four_rules (rt : Runtime) (c : Config) (k : String)
    (hc : Reachable rt c)
    (hk : Viper.find rt c.vp ConfigKmsKey true = some (.str k)) :
    (HasPrefix k "arn:aws:kms:" = true → KmsKey rt c = .ok k) ∧
    (HasPrefix k "arn:aws:kms:" = false → SpecKeyIdShape k → KmsKey rt c = .ok k) ∧
    (HasPrefix k "arn:aws:kms:" = false → ¬ SpecKeyIdShape k →
      HasPrefix k "alias/" = false → KmsKey rt c = .ok ("alias/" ++ k)) ∧
    (HasPrefix k "arn:aws:kms:" = false → ¬ SpecKeyIdShape k →
      HasPrefix k "alias/" = true → KmsKey rt c = .ok k) ∧
    KmsKey (exampleRuntime [("CHAMBER_KMS_KEY", "abc")] true)
      (NewConfig (exampleRuntime [("CHAMBER_KMS_KEY", "abc")] true)) = .ok "alias/abc" ∧
    KmsKey (exampleRuntime [("CHAMBER_KMS_KEY", "alias/abc")] true)
      (NewConfig (exampleRuntime [("CHAMBER_KMS_KEY", "alias/abc")] true)) = .ok "alias/abc" ∧
    KmsKey
      (exampleRuntime [("CHAMBER_KMS_KEY",
        "arn:aws:kms:us-east-1:111122223333:key/1234abcd-12ab-34cd-56ef-1234567890ab")] true)
      (NewConfig (exampleRuntime [("CHAMBER_KMS_KEY",
        "arn:aws:kms:us-east-1:111122223333:key/1234abcd-12ab-34cd-56ef-1234567890ab")] true))
      = .ok "arn:aws:kms:us-east-1:111122223333:key/1234abcd-12ab-34cd-56ef-1234567890ab" ∧
    KmsKey (exampleRuntime [("CHAMBER_KMS_KEY", "1234abcd-12ab-34cd-56ef-1234567890ab")] true)
      (NewConfig (exampleRuntime [("CHAMBER_KMS_KEY", "1234abcd-12ab-34cd-56ef-1234567890ab")] true))
      = .ok "1234abcd-12ab-34cd-56ef-1234567890ab" := by
  obtain ⟨val, hval, hkms⟩ := KmsKey_of_reachable rt c hc
  rw [hk] at hval
  cases hval
  have hform : KmsKey rt c = .ok (kmsKeyForm k) := hkms
  refine ⟨?_, ?_, ?_, ?_, by decide, by decide, by decide, by decide⟩
  · intro harn
    rw [hform]
    simp [kmsKeyForm, harn]
  · intro harn hshape
    have hid := (MatchString_iff_shape k).mpr hshape
    rw [hform]
    simp [kmsKeyForm, harn, hid]
  · intro harn hshape hal
    have hid : MatchString looksLikeKmsKeyId k = false := by
      cases h : MatchString looksLikeKmsKeyId k
      · rfl
      · exact absurd ((MatchString_iff_shape k).mp h) hshape
    rw [hform]
    simp [kmsKeyForm, harn, hid, hal]
  · intro harn hshape hal
    have hid : MatchString looksLikeKmsKeyId k = false := by
      cases h : MatchString looksLikeKmsKeyId k
      · rfl
      · exact absurd ((MatchString_iff_shape k).mp h) hshape
    rw [hform]
    simp [kmsKeyForm, harn, hid, hal]

/-- Witness for C1: with `CHAMBER_KMS_KEY=abc` and nothing else, a fresh
configuration stores `abc` and `KmsKey()` returns `alias/abc` by the third
rule. -/
theorem KmsKey_four_rules_witness :
    KmsKey (exampleRuntime [("CHAMBER_KMS_KEY", "abc")] true)
      (NewConfig (exampleRuntime [("CHAMBER_KMS_KEY", "abc")] true)) = .ok ("alias/" ++ "abc") :=
  (KmsKey_four_rules (exampleRuntime [("CHAMBER_KMS_KEY", "abc")] true)
    (NewConfig (exampleRuntime [("CHAMBER_KMS_KEY", "abc")] true)) "abc"
    Reachable.init (by decide)).2.2.1 (by decide)
    (fun h => absurd ((MatchString_iff_shape "abc").mpr h) (by decide)) (by decide)

/-- C2, as the code has it: after a successful `MergeConfig` in a reachable
configuration, a setting `k` the decoded text defines as `v` resolves as
follows. A changed flag bound to `k` is what `k` resolves to. Else a non-empty
environment variable bound to `k` is. Else, when the merged layer accepted
`v` (the key was new to it, or it held no nested object unless `v` is one,
and, for a viper that checks types on merge, held a value of the dynamic type
of `v`), `k` is set and resolves to `v`, ahead of the default, and the
accessors read `v` as follows. `Retries`, `UsePaths`, `KmsKey` and
skip-base-config, which have a default, return `v` converted to the type of
the default: `Retries()` is a 64-bit `int`, a number being truncated toward
zero when that fits (merging `{"retries": 5.7}` gives 5) and left to the
implementation when it does not (2 ^ 63 gives `intMin` on amd64). `Base` and
`AwsRegion`, which have no default, return `v` when it is a string and panic
in their type assertion when it is not. -/
theorem MergeConfig_defined_key_resolves (rt : Runtime) (c : Config) (config : String)
    (cfg : List (String × Value)) (k : String) (v : Value)
    (hc : Reachable rt c)
    (hdec : rt.unmarshal (if HasPrefix config "\x7b" then "json" else "properties") config
      = .ok cfg)
    (hnodup : (keysOf cfg).Nodup)
    (hk : (k, v) ∈ cfg)
    (hsetting : k ∈ settingNames) :
    (MergeConfig rt c config).2 = none ∧
    (∀ f fd, lookupKey k c.vp.pflags = some f → f.changed = true →
      Viper.find rt (MergeConfig rt c config).1.vp k fd = some (Viper.flagValue rt f)) ∧
    ((∀ f, lookupKey k c.vp.pflags = some f → f.changed = false) →
      ∀ e fd, lookupKey k c.vp.env = some e → rt.getenv e ≠ "" →
        Viper.find rt (MergeConfig rt c config).1.vp k fd = some (.str (rt.getenv e))) ∧
    ((∀ f, lookupKey k c.vp.pflags = some f → f.changed = false) →
      (∀ e, lookupKey k c.vp.env = some e → rt.getenv e = "") →
      (∀ tv, lookupKey k c.vp.config = some tv →
        (rt.mergeTypeCheck = true → tv.kind = v.kind) ∧ (tv = .object → v = .object)) →
      (∀ fd, Viper.find rt (MergeConfig rt c config).1.vp k fd = some v) ∧
      (MergeConfig rt c config).1.vp.IsSet rt k = true ∧
      (k = ConfigRetries →
        Retries rt (MergeConfig rt c config).1 = .ok (toIntV rt v) ∧
        intMin ≤ toIntV rt v ∧ toIntV rt v ≤ intMax ∧
        (∀ n, v = .int n → intMin ≤ n → n ≤ intMax →
          Retries rt (MergeConfig rt c config).1 = .ok n) ∧
        (∀ f, v = .float f → intMin ≤ f.trunc → f.trunc ≤ intMax →
          Retries rt (MergeConfig rt c config).1 = .ok f.trunc)) ∧
      (k = ConfigUsePaths → UsePaths rt (MergeConfig rt c config).1 = .ok (toBoolV rt v)) ∧
      (k = ConfigKmsKey →
        KmsKey rt (MergeConfig rt c config).1 = .ok (kmsKeyForm (toStringV rt v))) ∧
      (k = ConfigSkipBaseConfig →
        (MergeConfig rt c config).1.vp.Get rt ConfigSkipBaseConfig
          = some (.bool (toBoolV rt v))) ∧
      (k = ConfigBase →
        (∀ s, v = .str s → Base rt (MergeConfig rt c config).1 = .ok (s, s != "")) ∧
        ((∀ s, v ≠ .str s) → Base rt (MergeConfig rt c config).1 = .error .typeAssertion)) ∧
      (k = ConfigAwsRegion →
        (∀ s, v = .str s → AwsRegion rt (MergeConfig rt c config).1 = .ok (s, true)) ∧
        ((∀ s, v ≠ .str s) →
          AwsRegion rt (MergeConfig rt c config).1 = .error .typeAssertion))) ∧
    Retries (exampleRuntime [] true)
      (mergeAll (exampleRuntime [] true) ["\x7b\"retries\": 5.7\x7d"]) = .ok 5 ∧
    Retries (exampleRuntime [] true)
      (mergeAll (exampleRuntime [] true) ["\x7b\"retries\": 9223372036854775808\x7d"])
      = .ok intMin := by
  obtain ⟨herr, hvp⟩ := MergeConfig_of_ok rt c config cfg hdec
  have hreach : Reachable rt (MergeConfig rt c config).1 := Reachable.merge c config hc
  obtain ⟨hd, hty⟩ := reachable_defaults rt _ hreach
  have hpf : (MergeConfig rt c config).1.vp.pflags = c.vp.pflags := by rw [hvp]
  have hen : (MergeConfig rt c config).1.vp.env = c.vp.env := by rw [hvp]
  refine ⟨herr, ?_, ?_, ?_, by decide, by decide⟩
  · intro f fd hf hchanged
    exact find_flag rt _ k fd f (by rw [hpf]; exact hf) hchanged
  · intro hflag e fd he hne
    exact find_env rt _ k e fd (by rw [hpf]; exact hflag) (by rw [hen]; exact he) hne
  · intro hflag henv htype
    have hcfg : lookupKey k (MergeConfig rt c config).1.vp.config = some v := by
      rw [hvp]
      exact lookupKey_mergeMaps_mem _ _ _ k v hnodup hk htype
    have hfind : ∀ fd, Viper.find rt (MergeConfig rt c config).1.vp k fd = some v := by
      intro fd
      exact find_config rt _ k fd v (by rw [hpf]; exact hflag) (by rw [hen]; exact henv) hcfg
    have hset : (MergeConfig rt c config).1.vp.IsSet rt k = true := by
      unfold Viper.IsSet
      rw [lower_of_setting k hsetting, hfind]
      rfl
    refine ⟨hfind, hset, ?_, ?_, ?_, ?_, ?_, ?_⟩
    · intro hkey
      subst hkey
      obtain ⟨val, hval, hret⟩ := Retries_of_reachable rt _ hreach
      rw [hfind true] at hval
      cases hval
      refine ⟨hret, (toIntV_range rt v).1, (toIntV_range rt v).2, ?_, ?_⟩
      · intro n hn h1 h2
        subst hn
        rw [hret]
        simp only [toIntV, wrapInt_of_range n h1 h2]
      · intro f hf h1 h2
        subst hf
        rw [hret]
        simp only [toIntV, floatToInt, h1, h2, and_self, if_true]
    · intro hkey
      subst hkey
      obtain ⟨val, hval, hret⟩ := UsePaths_of_reachable rt _ hreach
      rw [hfind true] at hval
      cases hval
      exact hret
    · intro hkey
      subst hkey
      obtain ⟨val, hval, hret⟩ := KmsKey_of_reachable rt _ hreach
      rw [hfind true] at hval
      cases hval
      exact hret
    · intro hkey
      subst hkey
      obtain ⟨val, hval, hget, -⟩ := skip_of_reachable rt _ hreach
      rw [hfind true] at hval
      cases hval
      exact hget
    · intro hkey
      subst hkey
      have hopt := optional_of_find rt _ ConfigBase v (by rw [hd]; decide) hty
        (by rw [lower_ConfigBase]; exact hfind true)
        (by rw [lower_ConfigBase]; exact hfind _)
      constructor
      · intro s hs
        subst hs
        unfold Base
        rw [hopt]
        rfl
      · intro hs
        unfold Base
        rw [hopt]
        cases v with
        | str s => exact absurd rfl (hs s)
        | bool b => rfl
        | int n => rfl
        | float f => rfl
        | object => rfl
    · intro hkey
      subst hkey
      have hopt := optional_of_find rt _ ConfigAwsRegion v (by rw [hd]; decide) hty
        (by rw [lower_ConfigAwsRegion]; exact hfind true)
        (by rw [lower_ConfigAwsRegion]; exact hfind _)
      constructor
      · intro s hs
        subst hs
        unfold AwsRegion
        rw [hopt]
        rfl
      · intro hs
        unfold AwsRegion
        rw [hopt]
        cases v with
        | str s => exact absurd rfl (hs s)
        | bool b => rfl
        | int n => rfl
        | float f => rfl
        | object => rfl

/-- Witness for C2: with an empty environment and no flag, merging
`{"retries": 5}` into a fresh configuration makes `Retries()` return 5, ahead
of the default 10. -/
theorem MergeConfig_defined_key_resolves_witness :
    Retries (exampleRuntime [] true)
      (MergeConfig (exampleRuntime [] true) (NewConfig (exampleRuntime [] true))
        "\x7b\"retries\": 5\x7d").1 = .ok 5 :=
  (((MergeConfig_defined_key_resolves (exampleRuntime [] true)
    (NewConfig (exampleRuntime [] true)) "\x7b\"retries\": 5\x7d"
    [("retries", .float (Float64.ofInt 5))]
    "retries" (.float (Float64.ofInt 5)) Reachable.init (by decide) (by decide) (by decide)
    (by decide)).2.2.2.1
    (by intro f hf; cases hf)
    (by
      intro e he
      have h2 : e = "CHAMBER_RETRIES" := by
        have h3 : lookupKey "retries" (NewConfig (exampleRuntime [] true)).vp.env
            = some "CHAMBER_RETRIES" := by decide
        rw [h3] at he
        cases he
        rfl
      subst h2
      decide)
    (by intro tv htv; cases htv)).2.2.1 rfl).1

/-- Counterexample to C2 as stated: with `CHAMBER_RETRIES=3` in the
environment, merging `{"retries": 5}` succeeds and defines `retries`, yet
`Retries()` returns 3; with a changed integer flag of value 4 bound to
`retries` (empty environment), the same merge leaves `Retries()` at 4; and
with a nested object already merged under `retries` (empty environment, no
flag), merging `{"retries": 6}` succeeds and leaves `Retries()` at 0; and
merging `{"aws-region": 5}` into a fresh configuration succeeds, after which
`AwsRegion()` panics in its type assertion. -/
theorem MergeConfig_does_not_override_env_or_flag :
    (MergeConfig (exampleRuntime [("CHAMBER_RETRIES", "3")] true)
      (NewConfig (exampleRuntime [("CHAMBER_RETRIES", "3")] true))
      "\x7b\"retries\": 5\x7d").2 = none ∧
    (exampleRuntime [("CHAMBER_RETRIES", "3")] true).unmarshal "json" "\x7b\"retries\": 5\x7d"
      = .ok [("retries", .float (Float64.ofInt 5))] ∧
    Retries (exampleRuntime [("CHAMBER_RETRIES", "3")] true)
      (MergeConfig (exampleRuntime [("CHAMBER_RETRIES", "3")] true)
        (NewConfig (exampleRuntime [("CHAMBER_RETRIES", "3")] true))
        "\x7b\"retries\": 5\x7d").1 = .ok 3 ∧
    Retries (exampleRuntime [] true)
      (MergeConfig (exampleRuntime [] true)
        (BindPFlag (NewConfig (exampleRuntime [] true)) "retries"
          (some { changed := true, valueType := "int", valueString := "4" })).1
        "\x7b\"retries\": 5\x7d").1 = .ok 4 ∧
    (MergeConfig (exampleRuntime [] false)
      (mergeAll (exampleRuntime [] false) ["\x7b\"retries\": \x7b\"max\": 5\x7d\x7d"])
      "\x7b\"retries\": 6\x7d").2 = none ∧
    Retries (exampleRuntime [] false)
      (MergeConfig (exampleRuntime [] false)
        (mergeAll (exampleRuntime [] false) ["\x7b\"retries\": \x7b\"max\": 5\x7d\x7d"])
        "\x7b\"retries\": 6\x7d").1 = .ok 0 ∧
    (MergeConfig (exampleRuntime [] true) (NewConfig (exampleRuntime [] true))
      "\x7b\"aws-region\": 5\x7d").2 = none ∧
    AwsRegion (exampleRuntime [] true)
      (mergeAll (exampleRuntime [] true) ["\x7b\"aws-region\": 5\x7d"])
      = .error .typeAssertion := by
  decide

/-- C3, as the code has it: in every reachable configuration where `base`,
when set, holds a string, skip-base-config reads as a boolean `skip` and
`BaseConfigPath()` returns the empty string when `skip` is true, whatever the
string; returns the empty string when `base` is not set or is the empty
string; and returns the base string when `skip` is false and `base` is a
non-empty string. -/
theorem BaseConfigPath_cases (rt : Runtime) (c : Config) (hc : Reachable rt c)
    (hbase : c.vp.IsSet rt ConfigBase = false ∨ ∃ s, c.vp.Get rt ConfigBase = some (.str s)) :
    ∃ skip, c.vp.Get rt ConfigSkipBaseConfig = some (.bool skip) ∧
      (skip = true → BaseConfigPath rt c = .ok "") ∧
      ((c.vp.IsSet rt ConfigBase = false ∨ c.vp.Get rt ConfigBase = some (.str "")) →
        BaseConfigPath rt c = .ok "") ∧
      (∀ s, skip = false → c.vp.IsSet rt ConfigBase = true →
        c.vp.Get rt ConfigBase = some (.str s) → s ≠ "" → BaseConfigPath rt c = .ok s) := by
  obtain ⟨val, -, hget, hreq⟩ := skip_of_reachable rt c hc
  have hpath : ∀ s ok, Base rt c = .ok (s, ok) →
      BaseConfigPath rt c = if toBoolV rt val || !ok then .ok "" else .ok s := by
    intro s ok hb
    unfold BaseConfigPath
    rw [hb, hreq]
    rfl
  have hunset : c.vp.IsSet rt ConfigBase = false → Base rt c = .ok ("", false) := by
    intro h
    rw [Base_eq]
    simp [h]
  have hstr : ∀ s, c.vp.IsSet rt ConfigBase = true → c.vp.Get rt ConfigBase = some (.str s) →
      Base rt c = .ok (s, s != "") := by
    intro s h1 h2
    rw [Base_eq, if_pos h1, h2]
    rfl
  refine ⟨toBoolV rt val, hget, ?_, ?_, ?_⟩
  · intro hskip
    by_cases hset : c.vp.IsSet rt ConfigBase = true
    · rcases hbase with h | ⟨s, hs⟩
      · rw [h] at hset
        cases hset
      · rw [hpath _ _ (hstr s hset hs), hskip]
        rfl
    · rw [hpath _ _ (hunset (by simpa using hset))]
      simp
  · rintro (h | h)
    · rw [hpath _ _ (hunset h)]
      simp
    · by_cases hset : c.vp.IsSet rt ConfigBase = true
      · rw [hpath _ _ (hstr "" hset h)]
        simp
      · rw [hpath _ _ (hunset (by simpa using hset))]
        simp
  · intro s hskip hset hs hne
    rw [hpath _ _ (hstr s hset hs), hskip]
    simp [hne]

/-- Witness for C3: with `CHAMBER_BASE=conf/base` and skip-base-config at its
default, `BaseConfigPath()` is `conf/base`. -/
theorem BaseConfigPath_cases_witness :
    ∃ skip, (NewConfig (exampleRuntime [("CHAMBER_BASE", "conf/base")] true)).vp.Get
        (exampleRuntime [("CHAMBER_BASE", "conf/base")] true) ConfigSkipBaseConfig
        = some (.bool skip) ∧
      skip = false ∧
      BaseConfigPath (exampleRuntime [("CHAMBER_BASE", "conf/base")] true)
        (NewConfig (exampleRuntime [("CHAMBER_BASE", "conf/base")] true)) = .ok "conf/base" := by
  obtain ⟨skip, hget, -, -, h⟩ := BaseConfigPath_cases
    (exampleRuntime [("CHAMBER_BASE", "conf/base")] true)
    (NewConfig (exampleRuntime [("CHAMBER_BASE", "conf/base")] true)) Reachable.init
    (Or.inr ⟨"conf/base", by decide⟩)
  have hskip : skip = false := by
    have h2 : (NewConfig (exampleRuntime [("CHAMBER_BASE", "conf/base")] true)).vp.Get
        (exampleRuntime [("CHAMBER_BASE", "conf/base")] true) ConfigSkipBaseConfig
        = some (.bool false) := by decide
    rw [hget] at h2
    cases h2
    rfl
  exact ⟨skip, hget, hskip, h "conf/base" hskip (by decide) (by decide) (by decide)⟩

/-- Counterexample to C3 as stated: after merging
`{"base": 5, "skip-base-config": true}` into a fresh configuration (empty
environment), skip-base-config reads as true and `base` is set, to a number;
`BaseConfigPath()` does not return the empty string, it panics in the type
assertion of `Base()`. -/
theorem BaseConfigPath_panics_on_number_base :
    (MergeConfig (exampleRuntime [] true) (NewConfig (exampleRuntime [] true))
      "\x7b\"base\": 5, \"skip-base-config\": true\x7d").2 = none ∧
    (mergeAll (exampleRuntime [] true) ["\x7b\"base\": 5, \"skip-base-config\": true\x7d"]).vp.Get
      (exampleRuntime [] true) ConfigSkipBaseConfig = some (.bool true) ∧
    (mergeAll (exampleRuntime [] true) ["\x7b\"base\": 5, \"skip-base-config\": true\x7d"]).vp.Get
      (exampleRuntime [] true) ConfigBase = some (.float (Float64.ofInt 5)) ∧
    BaseConfigPath (exampleRuntime [] true)
      (mergeAll (exampleRuntime [] true) ["\x7b\"base\": 5, \"skip-base-config\": true\x7d"])
      = .error .typeAssertion := by
  decide

/-- C4: when the text fails to decode (as the type `MergeConfig` picked for
it), `MergeConfig` returns that error, and `Base`, `KmsKey`, `AwsRegion`,
`UsePaths`, `BaseConfigPath`, `Retries` and `Marshal` give after the call what
they gave before it; every layer of the store is as it was. -/
theorem MergeConfig_decode_error_keeps_values (rt : Runtime) (c : Config) (config err : String)
    (hdec : rt.unmarshal (if HasPrefix config "\x7b" then "json" else "properties") config
      = .error err) :
    (MergeConfig rt c config).2 = some err ∧
    Base rt (MergeConfig rt c config).1 = Base rt c ∧
    KmsKey rt (MergeConfig rt c config).1 = KmsKey rt c ∧
    AwsRegion rt (MergeConfig rt c config).1 = AwsRegion rt c ∧
    UsePaths rt (MergeConfig rt c config).1 = UsePaths rt c ∧
    BaseConfigPath rt (MergeConfig rt c config).1 = BaseConfigPath rt c ∧
    Retries rt (MergeConfig rt c config).1 = Retries rt c ∧
    Marshal rt (MergeConfig rt c config).1 = Marshal rt c ∧
    (MergeConfig rt c config).1.vp.config = c.vp.config ∧
    (MergeConfig rt c config).1.vp.defaults = c.vp.defaults ∧
    (MergeConfig rt c config).1.vp.env = c.vp.env ∧
    (MergeConfig rt c config).1.vp.pflags = c.vp.pflags := by
  obtain ⟨herr, hvp⟩ := MergeConfig_of_error rt c config err hdec
  have hc2 : (MergeConfig rt c config).1 =
      { vp := { c.vp with
        configType := if HasPrefix config "\x7b" then "json" else "properties" } } := by
    cases hm : (MergeConfig rt c config).1 with
    | mk vp =>
      rw [hm] at hvp
      simp only at hvp
      rw [hvp]
  rw [hc2]
  exact ⟨herr, rfl, rfl, rfl, rfl, rfl, rfl, rfl, rfl, rfl, rfl, rfl⟩

/-- Witness for C4: `{invalid` fails to decode; the call returns the error
and `Retries()` of a fresh configuration is unchanged. -/
theorem MergeConfig_decode_error_keeps_values_witness :
    (MergeConfig (exampleRuntime [] true) (NewConfig (exampleRuntime [] true)) "\x7binvalid").2
      = some "invalid JSON" ∧
    Retries (exampleRuntime [] true)
      (MergeConfig (exampleRuntime [] true) (NewConfig (exampleRuntime [] true)) "\x7binvalid").1
      = Retries (exampleRuntime [] true) (NewConfig (exampleRuntime [] true)) :=
  have h := MergeConfig_decode_error_keeps_values (exampleRuntime [] true)
    (NewConfig (exampleRuntime [] true)) "\x7binvalid" "invalid JSON" (by decide)
  ⟨h.1, h.2.2.2.2.2.2.1⟩

/-- C5, as the code has it: `MergeConfig` decodes the text as a JSON object
exactly when the text itself, untrimmed, begins with an opening brace, and as
properties text otherwise: that is the config type it sets and the decoder
whose outcome it returns. -/
theorem MergeConfig_detects_by_first_byte (rt : Runtime) (c : Config) (config : String) :
    ((MergeConfig rt c config).1.vp.configType = "json" ↔ HasPrefix config "\x7b" = true) ∧
    ((MergeConfig rt c config).1.vp.configType = "properties" ↔
      HasPrefix config "\x7b" = false) ∧
    (HasPrefix config "\x7b" = true →
      (MergeConfig rt c config).2 =
        match rt.unmarshal "json" config with
        | .error err => some err
        | .ok _ => none) ∧
    (HasPrefix config "\x7b" = false →
      (MergeConfig rt c config).2 =
        match rt.unmarshal "properties" config with
        | .error err => some err
        | .ok _ => none) := by
  have hty : (MergeConfig rt c config).1.vp.configType =
      if HasPrefix config "\x7b" then "json" else "properties" := by
    cases hdec : rt.unmarshal (if HasPrefix config "\x7b" then "json" else "properties") config with
    | error err => rw [(MergeConfig_of_error rt c config err hdec).2]
    | ok cfg => rw [(MergeConfig_of_ok rt c config cfg hdec).2]
  have hres : ∀ ty, ty = (if HasPrefix config "\x7b" then "json" else "properties") →
      (MergeConfig rt c config).2 =
        match rt.unmarshal ty config with
        | .error err => some err
        | .ok _ => none := by
    intro ty hty2
    subst hty2
    cases hdec : rt.unmarshal (if HasPrefix config "\x7b" then "json" else "properties") config with
    | error err => exact (MergeConfig_of_error rt c config err hdec).1
    | ok cfg => exact (MergeConfig_of_ok rt c config cfg hdec).1
  by_cases h : HasPrefix config "\x7b" = true
  · rw [hty]
    refine ⟨by simp [h], by simp [h], fun _ => hres _ (by simp [h]), fun h2 => ?_⟩
    rw [h] at h2
    cases h2
  · have hf : HasPrefix config "\x7b" = false := by simpa using h
    rw [hty]
    refine ⟨by simp [hf], by simp [hf], fun h2 => ?_, fun _ => hres _ (by simp [hf])⟩
    rw [hf] at h2
    cases h2

/-- Counterexample to C5 as stated: the text ` {"retries": 5}` begins with a
brace once trimmed, yet `MergeConfig` sets the config type `properties` for
it; the same object without the leading blank is taken as JSON. -/
theorem MergeConfig_leading_blank_is_properties :
    specDetectsJson " \x7b\"retries\": 5\x7d" = true ∧
    (MergeConfig (exampleRuntime [] true) (NewConfig (exampleRuntime [] true))
      " \x7b\"retries\": 5\x7d").1.vp.configType = "properties" ∧
    (MergeConfig (exampleRuntime [] true) (NewConfig (exampleRuntime [] true))
      "\x7b\"retries\": 5\x7d").1.vp.configType = "json" := by
  decide

/-- C6: `Base()` reports present=true exactly when `base` is set and its
value is a non-empty string, and then returns that string; it reports
present=false (with the empty string) when `base` is not set and when `base`
is set to the empty string. So a fresh configuration with an empty
environment, and one into which an empty `base` was merged, both report
present=false, while `CHAMBER_BASE=conf/base` reports present=true. -/
theorem Base_present_iff (rt : Runtime) (c : Config) :
    (∀ v, Base rt c = .ok (v, true) ↔
      (c.vp.IsSet rt ConfigBase = true ∧ c.vp.Get rt ConfigBase = some (.str v) ∧ v ≠ "")) ∧
    (c.vp.IsSet rt ConfigBase = false → Base rt c = .ok ("", false)) ∧
    (c.vp.IsSet rt ConfigBase = true → c.vp.Get rt ConfigBase = some (.str "") →
      Base rt c = .ok ("", false)) ∧
    Base (exampleRuntime [] true) (NewConfig (exampleRuntime [] true)) = .ok ("", false) ∧
    Base (exampleRuntime [] true) (mergeAll (exampleRuntime [] true) ["\x7b\"base\": \"\"\x7d"])
      = .ok ("", false) ∧
    Base (exampleRuntime [("CHAMBER_BASE", "conf/base")] true)
      (NewConfig (exampleRuntime [("CHAMBER_BASE", "conf/base")] true)) = .ok ("conf/base", true) := by
  refine ⟨?_, ?_, ?_, by decide, by decide, by decide⟩
  · intro v
    rw [Base_eq]
    by_cases hset : c.vp.IsSet rt ConfigBase = true
    · rw [if_pos hset]
      cases hget : c.vp.Get rt ConfigBase with
      | none => simp [assertString, hset]
      | some val =>
        cases val with
        | str s =>
          simp only [assertString, Except.ok.injEq, Prod.mk.injEq, hset, true_and,
            Option.some.injEq, Value.str.injEq]
          constructor
          · rintro ⟨rfl, hne⟩
            exact ⟨rfl, by simpa using hne⟩
          · rintro ⟨rfl, hne⟩
            exact ⟨rfl, by simpa using hne⟩
        | bool b => simp [assertString, hset]
        | int n => simp [assertString, hset]
        | float n => simp [assertString, hset]
        | object => simp [assertString, hset]
    · rw [if_neg hset]
      simp [hset]
  · intro hset
    rw [Base_eq]
    simp [hset]
  · intro hset hget
    rw [Base_eq, if_pos hset, hget]
    rfl

/-- C7: the normalization `KmsKey()` applies is idempotent; a result that
starts with `alias/` is neither ARN-prefixed nor key-ID-shaped, so it is
returned as it is when normalized again; and in every reachable configuration
`KmsKey()` is that function of the stored value alone, the store being read,
not written. -/
theorem kmsKeyForm_idempotent :
    (∀ k, kmsKeyForm (kmsKeyForm k) = kmsKeyForm k) ∧
    (∀ k, HasPrefix (kmsKeyForm k) "alias/" = true →
      HasPrefix (kmsKeyForm k) "arn:aws:kms:" = false ∧
      MatchString looksLikeKmsKeyId (kmsKeyForm k) = false) ∧
    (∀ rt c, Reachable rt c →
      ∃ val, Viper.find rt c.vp ConfigKmsKey true = some val ∧
        KmsKey rt c = .ok (kmsKeyForm (toStringV rt val))) :=
  ⟨kmsKeyForm_idem, fun k h => kmsKeyForm_of_alias (kmsKeyForm k) h, KmsKey_of_reachable⟩

/-- C8, as the code has it: a successful `MergeConfig` returns no error and
is additive. Every setting whose key the decoded text does not define keeps
its set/unset status and its value, so each accessor whose keys are not
defined returns what it returned before; after merging `{"retries": 5}` and
then `{}` into a fresh configuration `Retries()` is 5. A merge that defines a
key replaces the value the merged layer holds for it when the key is new to
that layer, or when the held value is no nested object (or the new one is an
object too) and, for a viper that checks types on merge, both have the same
dynamic type; so `{"retries": 5}` then `{"retries": 6}` gives 6. In the other
cases the merged layer keeps the value it held. -/
theorem MergeConfig_additive (rt : Runtime) (c : Config) (config : String)
    (cfg : List (String × Value))
    (hdec : rt.unmarshal (if HasPrefix config "\x7b" then "json" else "properties") config
      = .ok cfg) :
    (MergeConfig rt c config).2 = none ∧
    (∀ name ∈ settingNames, name ∉ keysOf cfg →
      (MergeConfig rt c config).1.vp.IsSet rt name = c.vp.IsSet rt name ∧
      (MergeConfig rt c config).1.vp.Get rt name = c.vp.Get rt name) ∧
    (ConfigBase ∉ keysOf cfg → Base rt (MergeConfig rt c config).1 = Base rt c) ∧
    (ConfigKmsKey ∉ keysOf cfg → KmsKey rt (MergeConfig rt c config).1 = KmsKey rt c) ∧
    (ConfigAwsRegion ∉ keysOf cfg →
      AwsRegion rt (MergeConfig rt c config).1 = AwsRegion rt c) ∧
    (ConfigUsePaths ∉ keysOf cfg → UsePaths rt (MergeConfig rt c config).1 = UsePaths rt c) ∧
    (ConfigRetries ∉ keysOf cfg → Retries rt (MergeConfig rt c config).1 = Retries rt c) ∧
    (ConfigBase ∉ keysOf cfg → ConfigSkipBaseConfig ∉ keysOf cfg →
      BaseConfigPath rt (MergeConfig rt c config).1 = BaseConfigPath rt c) ∧
    (∀ k v, (keysOf cfg).Nodup → (k, v) ∈ cfg →
      (∀ tv, lookupKey k c.vp.config = some tv →
        (rt.mergeTypeCheck = true → tv.kind = v.kind) ∧ (tv = .object → v = .object)) →
      lookupKey k (MergeConfig rt c config).1.vp.config = some v) ∧
    (∀ k v tv, (keysOf cfg).Nodup → (k, v) ∈ cfg → lookupKey k c.vp.config = some tv →
      ((rt.mergeTypeCheck = true ∧ tv.kind ≠ v.kind) ∨ (tv = .object ∧ v ≠ .object)) →
      lookupKey k (MergeConfig rt c config).1.vp.config = some tv) ∧
    (∀ tc, Retries (exampleRuntime [] tc)
      (mergeAll (exampleRuntime [] tc) ["\x7b\"retries\": 5\x7d", "\x7b\x7d"]) = .ok 5) ∧
    (∀ tc, Retries (exampleRuntime [] tc)
      (mergeAll (exampleRuntime [] tc) ["\x7b\"retries\": 5\x7d", "\x7b\"retries\": 6\x7d"])
      = .ok 6) := by
  obtain ⟨herr, hvp⟩ := MergeConfig_of_ok rt c config cfg hdec
  have hframe : ∀ name ∈ settingNames, name ∉ keysOf cfg →
      (MergeConfig rt c config).1.vp.IsSet rt name = c.vp.IsSet rt name ∧
      (MergeConfig rt c config).1.vp.Get rt name = c.vp.Get rt name := by
    intro name hsetting hname
    apply IsSet_Get_congr rt c.vp (MergeConfig rt c config).1.vp name
    · rw [hvp]
    · rw [hvp]
    · rw [hvp]
    · rw [hvp]
    · rw [hvp, lower_of_setting name hsetting]
      exact lookupKey_mergeMaps_frame _ _ _ _ hname
  have hval : ∀ name ∈ settingNames, ∀ required, name ∉ keysOf cfg →
      getConfigVal rt (MergeConfig rt c config).1 name required
        = getConfigVal rt c name required := by
    intro name hsetting required hname
    exact getConfigVal_congr rt c _ name required (hframe name hsetting hname).1
      (hframe name hsetting hname).2
  refine ⟨herr, hframe, ?_, ?_, ?_, ?_, ?_, ?_, ?_, ?_, ?_, ?_⟩
  · intro h
    unfold Base getConfigValOptional
    rw [hval _ (by decide) _ h]
  · intro h
    unfold KmsKey getConfigValRequired
    rw [hval _ (by decide) _ h]
  · intro h
    unfold AwsRegion getConfigValOptional
    rw [hval _ (by decide) _ h]
  · intro h
    unfold UsePaths getConfigValRequired
    rw [hval _ (by decide) _ h]
  · intro h
    unfold Retries getConfigValRequired
    rw [hval _ (by decide) _ h]
  · intro h1 h2
    unfold BaseConfigPath Base getConfigValOptional getConfigValRequired
    rw [hval _ (by decide) _ h1, hval _ (by decide) _ h2]
  · intro k v hnodup hk htype
    rw [hvp]
    exact lookupKey_mergeMaps_mem _ _ _ k v hnodup hk htype
  · intro k v tv hnodup hk htv hkept
    rw [hvp]
    exact lookupKey_mergeMaps_kept _ _ _ k v tv hnodup hk htv hkept
  · intro tc
    cases tc <;> decide
  · intro tc
    cases tc <;> decide

/-- Witness for C8: merging `{}` into the configuration that holds
`{"retries": 5}` defines no key, and `Retries()` stays what it was. -/
theorem MergeConfig_additive_witness :
    Retries (exampleRuntime [] true)
      (MergeConfig (exampleRuntime [] true)
        (mergeAll (exampleRuntime [] true) ["\x7b\"retries\": 5\x7d"]) "\x7b\x7d").1
      = Retries (exampleRuntime [] true)
        (mergeAll (exampleRuntime [] true) ["\x7b\"retries\": 5\x7d"]) :=
  (MergeConfig_additive (exampleRuntime [] true)
    (mergeAll (exampleRuntime [] true) ["\x7b\"retries\": 5\x7d"]) "\x7b\x7d" []
    (by decide)).2.2.2.2.2.2.1 (by decide)

/-- Counterexample to C8 as stated: after merging
`{"retries": {"max": 5}}` and then `{"retries": 5}` into a fresh
configuration, both merges succeed and the last one defines `retries` as 5,
yet the merged layer keeps the nested object and `Retries()` returns 0;
this is so whether or not the linked viper checks types on merge. -/
theorem MergeConfig_last_merge_dropped_after_object :
    (MergeConfig (exampleRuntime [] true)
      (mergeAll (exampleRuntime [] true) ["\x7b\"retries\": \x7b\"max\": 5\x7d\x7d"])
      "\x7b\"retries\": 5\x7d").2 = none ∧
    (exampleRuntime [] true).unmarshal "json" "\x7b\"retries\": 5\x7d"
      = .ok [("retries", .float (Float64.ofInt 5))] ∧
    Retries (exampleRuntime [] true)
      (mergeAll (exampleRuntime [] true)
        ["\x7b\"retries\": \x7b\"max\": 5\x7d\x7d", "\x7b\"retries\": 5\x7d"]) = .ok 0 ∧
    (MergeConfig (exampleRuntime [] false)
      (mergeAll (exampleRuntime [] false) ["\x7b\"retries\": \x7b\"max\": 5\x7d\x7d"])
      "\x7b\"retries\": 5\x7d").2 = none ∧
    Retries (exampleRuntime [] false)
      (mergeAll (exampleRuntime [] false)
        ["\x7b\"retries\": \x7b\"max\": 5\x7d\x7d", "\x7b\"retries\": 5\x7d"]) = .ok 0 := by
  decide

/-- C9: a configuration freshly built by `NewConfig`, with none of the
variables bound to the defaulted settings present in the environment, no flag
bound and nothing merged, has every defaulted setting set, and the accessors
return the defaults without panicking: `KmsKey()` is
`alias/parameter_store_key`, `UsePaths()` is false, `Retries()` is 10 and
skip-base-config reads as false. -/
theorem NewConfig_defaults_resolve (rt : Runtime)
    (henv : ∀ name ∈ ["CHAMBER_KMS_KEY", "CHAMBER_KMS_KEY_ALIAS", "CHAMBER_USE_PATHS",
      "CHAMBER_SKIP_BASE_CONFIG", "CHAMBER_RETRIES"], rt.lookupEnv name = none) :
    KmsKey rt (NewConfig rt) = .ok "alias/parameter_store_key" ∧
    UsePaths rt (NewConfig rt) = .ok false ∧
    Retries rt (NewConfig rt) = .ok 10 ∧
    getConfigValRequired rt (NewConfig rt) ConfigSkipBaseConfig = .ok (some (.bool false)) ∧
    (NewConfig rt).vp.IsSet rt ConfigKmsKey = true ∧
    (NewConfig rt).vp.IsSet rt ConfigUsePaths = true ∧
    (NewConfig rt).vp.IsSet rt ConfigRetries = true ∧
    (NewConfig rt).vp.IsSet rt ConfigSkipBaseConfig = true := by
  have hkms : rt.lookupEnv "CHAMBER_KMS_KEY" = none := henv _ (by simp)
  have hget : ∀ name ∈ ["CHAMBER_KMS_KEY", "CHAMBER_KMS_KEY_ALIAS", "CHAMBER_USE_PATHS",
      "CHAMBER_SKIP_BASE_CONFIG", "CHAMBER_RETRIES"], rt.getenv name = "" := by
    intro name hname
    simp [Runtime.getenv, henv name hname]
  have hp : (NewConfig rt).vp.pflags = [] := by rw [NewConfig_vp]
  have hcfg : (NewConfig rt).vp.config = [] := by rw [NewConfig_vp]
  have henvl : (NewConfig rt).vp.env = declaredEnv "CHAMBER_KMS_KEY_ALIAS" := by
    rw [NewConfig_vp]
    simp [hkms]
  have hd := NewConfig_defaults rt
  have hty := NewConfig_typeByDefValue rt
  have hfresh : ∀ k e d, lookupKey k (declaredEnv "CHAMBER_KMS_KEY_ALIAS") = some e →
      rt.getenv e = "" → lookupKey k declaredDefaults = some d →
      Viper.find rt (NewConfig rt).vp k true = some d := by
    intro k e d hk he hdk
    exact find_default rt _ k true d
      (by
        rw [hp]
        intro f hf
        cases hf)
      (by
        intro e2 he2
        rw [henvl, hk] at he2
        cases he2
        exact he)
      (by
        rw [hcfg]
        rfl)
      (by
        rw [hd]
        exact hdk)
  have f1 := hfresh ConfigKmsKey _ _ (lookupKey_declaredEnv_kms _) (hget _ (by simp))
    (by decide : lookupKey ConfigKmsKey declaredDefaults = some (.str "alias/parameter_store_key"))
  have f2 := hfresh ConfigUsePaths _ _ (lookupKey_declaredEnv_usePaths _) (hget _ (by simp))
    (by decide : lookupKey ConfigUsePaths declaredDefaults = some (.bool false))
  have f3 := hfresh ConfigRetries _ _ (lookupKey_declaredEnv_retries _) (hget _ (by simp))
    (by decide : lookupKey ConfigRetries declaredDefaults = some (.int 10))
  have f4 := hfresh ConfigSkipBaseConfig _ _ (lookupKey_declaredEnv_skip _) (hget _ (by simp))
    (by decide : lookupKey ConfigSkipBaseConfig declaredDefaults = some (.bool false))
  obtain ⟨v1, h1, s1, -, r1⟩ := required_of_default rt (NewConfig rt) ConfigKmsKey
    (.str "alias/parameter_store_key") (by rw [hd]; decide) hty
  obtain ⟨v2, h2, s2, -, r2⟩ := required_of_default rt (NewConfig rt) ConfigUsePaths
    (.bool false) (by rw [hd]; decide) hty
  obtain ⟨v3, h3, s3, -, r3⟩ := required_of_default rt (NewConfig rt) ConfigRetries
    (.int 10) (by rw [hd]; decide) hty
  obtain ⟨v4, h4, s4, -, r4⟩ := required_of_default rt (NewConfig rt) ConfigSkipBaseConfig
    (.bool false) (by rw [hd]; decide) hty
  rw [lower_ConfigKmsKey] at h1
  rw [lower_ConfigUsePaths] at h2
  rw [lower_ConfigRetries] at h3
  rw [lower_ConfigSkipBaseConfig] at h4
  have e1 : v1 = .str "alias/parameter_store_key" := by
    have h := f1.symm.trans h1
    cases h
    rfl
  have e2 : v2 = .bool false := by
    have h := f2.symm.trans h2
    cases h
    rfl
  have e3 : v3 = .int 10 := by
    have h := f3.symm.trans h3
    cases h
    rfl
  have e4 : v4 = .bool false := by
    have h := f4.symm.trans h4
    cases h
    rfl
  subst e1 e2 e3 e4
  refine ⟨?_, ?_, ?_, ?_, s1, s2, s3, s4⟩
  · unfold KmsKey
    rw [r1]
    have hform : kmsKeyForm "alias/parameter_store_key" = "alias/parameter_store_key" := by
      decide
    simp only [castAs, toStringV, assertString, hform]
  · unfold UsePaths
    rw [r2]
    rfl
  · unfold Retries
    rw [r3]
    rfl
  · rw [r4]
    rfl

/-- Witness for C9: the empty environment. -/
theorem NewConfig_defaults_resolve_witness :
    KmsKey (exampleRuntime [] true) (NewConfig (exampleRuntime [] true))
      = .ok "alias/parameter_store_key" ∧
    UsePaths (exampleRuntime [] true) (NewConfig (exampleRuntime [] true)) = .ok false ∧
    Retries (exampleRuntime [] true) (NewConfig (exampleRuntime [] true)) = .ok 10 :=
  have h := NewConfig_defaults_resolve (exampleRuntime [] true) (by
    intro name _
    rfl)
  ⟨h.1, h.2.1, h.2.2.1⟩

/-- C10, as the code has it: `NewConfig` binds `kms-key` to `CHAMBER_KMS_KEY`
when that variable is present in the environment `rt` it runs in (whatever
`CHAMBER_KMS_KEY_ALIAS` holds) and to `CHAMBER_KMS_KEY_ALIAS` only when it is
absent; the binding stays in every configuration reached from there, whatever
the environment `rd` of a later read. When no changed flag is bound to
`kms-key`, `KmsKey()` returns the normalized value of the bound variable if
that value is non-empty, and never reads the other variable; when the bound
variable is empty or gone and nothing was merged for `kms-key`, it returns the
default `alias/parameter_store_key`. -/
theorem NewConfig_kms_binding (rt rd : Runtime) (c : Config) (hc : Reachable rt c)
    (hflag : ∀ f, lookupKey ConfigKmsKey c.vp.pflags = some f → f.changed = false) :
    ((rt.lookupEnv "CHAMBER_KMS_KEY").isSome = true →
      lookupKey ConfigKmsKey c.vp.env = some "CHAMBER_KMS_KEY" ∧
      (rd.getenv "CHAMBER_KMS_KEY" ≠ "" →
        KmsKey rd c = .ok (kmsKeyForm (rd.getenv "CHAMBER_KMS_KEY"))) ∧
      (rd.getenv "CHAMBER_KMS_KEY" = "" → lookupKey ConfigKmsKey c.vp.config = none →
        KmsKey rd c = .ok "alias/parameter_store_key")) ∧
    ((rt.lookupEnv "CHAMBER_KMS_KEY").isSome = false →
      lookupKey ConfigKmsKey c.vp.env = some "CHAMBER_KMS_KEY_ALIAS" ∧
      (rd.getenv "CHAMBER_KMS_KEY_ALIAS" ≠ "" →
        KmsKey rd c = .ok (kmsKeyForm (rd.getenv "CHAMBER_KMS_KEY_ALIAS"))) ∧
      (rd.getenv "CHAMBER_KMS_KEY_ALIAS" = "" → lookupKey ConfigKmsKey c.vp.config = none →
        KmsKey rd c = .ok "alias/parameter_store_key")) := by
  obtain ⟨hd, hty⟩ := reachable_defaults rt c hc
  have henv := reachable_env rt c hc
  have hread : ∀ x, lookupKey ConfigKmsKey c.vp.env = some x →
      (rd.getenv x ≠ "" → KmsKey rd c = .ok (kmsKeyForm (rd.getenv x))) ∧
      (rd.getenv x = "" → lookupKey ConfigKmsKey c.vp.config = none →
        KmsKey rd c = .ok "alias/parameter_store_key") := by
    intro x hx
    constructor
    · intro hne
      exact KmsKey_of_find rd c _ hd hty (find_env rd c.vp ConfigKmsKey x true hflag hx hne)
    · intro hempty hcfg
      have hfind := find_default rd c.vp ConfigKmsKey true (.str "alias/parameter_store_key")
        hflag (by
          intro e he
          rw [hx] at he
          cases he
          exact hempty) hcfg (by rw [hd]; decide)
      have := KmsKey_of_find rd c _ hd hty hfind
      have hform : kmsKeyForm "alias/parameter_store_key" = "alias/parameter_store_key" := by
        decide
      simpa [toStringV, hform] using this
  constructor
  · intro h
    have hx : lookupKey ConfigKmsKey c.vp.env = some "CHAMBER_KMS_KEY" := by
      rw [henv, NewConfig_vp, lookupKey_declaredEnv_kms, if_pos h]
    exact ⟨hx, hread _ hx⟩
  · intro h
    have hx : lookupKey ConfigKmsKey c.vp.env = some "CHAMBER_KMS_KEY_ALIAS" := by
      rw [henv, NewConfig_vp, lookupKey_declaredEnv_kms, if_neg (by simp [h])]
    exact ⟨hx, hread _ hx⟩

/-- Witness for C10: with `CHAMBER_KMS_KEY=main` and
`CHAMBER_KMS_KEY_ALIAS=legacy` both present, a fresh configuration's
`KmsKey()` is the normalized `main`. -/
theorem NewConfig_kms_binding_witness :
    KmsKey (exampleRuntime [("CHAMBER_KMS_KEY", "main"), ("CHAMBER_KMS_KEY_ALIAS", "legacy")] true)
      (NewConfig (exampleRuntime [("CHAMBER_KMS_KEY", "main"), ("CHAMBER_KMS_KEY_ALIAS", "legacy")] true))
      = .ok (kmsKeyForm "main") :=
  ((NewConfig_kms_binding
    (exampleRuntime [("CHAMBER_KMS_KEY", "main"), ("CHAMBER_KMS_KEY_ALIAS", "legacy")] true)
    (exampleRuntime [("CHAMBER_KMS_KEY", "main"), ("CHAMBER_KMS_KEY_ALIAS", "legacy")] true)
    (NewConfig
      (exampleRuntime [("CHAMBER_KMS_KEY", "main"), ("CHAMBER_KMS_KEY_ALIAS", "legacy")] true))
    Reachable.init (by intro f hf; cases hf)).1 (by decide)).2.1 (by decide)

/-- Counterexample to C10 as stated: with `CHAMBER_KMS_KEY` present but empty
and `CHAMBER_KMS_KEY_ALIAS=legacy`, both variables are present, yet `KmsKey()`
returns the default `alias/parameter_store_key`, not the normalized value
`alias/` of `CHAMBER_KMS_KEY`; and with `CHAMBER_KMS_KEY=main`, a changed
string flag of value `cli` bound to `kms-key` makes `KmsKey()` return
`alias/cli`. -/
theorem KmsKey_empty_env_gives_default :
    ((exampleRuntime [("CHAMBER_KMS_KEY", ""), ("CHAMBER_KMS_KEY_ALIAS", "legacy")] true).lookupEnv
      "CHAMBER_KMS_KEY").isSome = true ∧
    ((exampleRuntime [("CHAMBER_KMS_KEY", ""), ("CHAMBER_KMS_KEY_ALIAS", "legacy")] true).lookupEnv
      "CHAMBER_KMS_KEY_ALIAS").isSome = true ∧
    kmsKeyForm
      ((exampleRuntime [("CHAMBER_KMS_KEY", ""), ("CHAMBER_KMS_KEY_ALIAS", "legacy")] true).getenv
        "CHAMBER_KMS_KEY") = "alias/" ∧
    KmsKey (exampleRuntime [("CHAMBER_KMS_KEY", ""), ("CHAMBER_KMS_KEY_ALIAS", "legacy")] true)
      (NewConfig (exampleRuntime [("CHAMBER_KMS_KEY", ""), ("CHAMBER_KMS_KEY_ALIAS", "legacy")] true))
      = .ok "alias/parameter_store_key" ∧
    KmsKey (exampleRuntime [("CHAMBER_KMS_KEY", "main"), ("CHAMBER_KMS_KEY_ALIAS", "legacy")] true)
      (BindPFlag
        (NewConfig
          (exampleRuntime [("CHAMBER_KMS_KEY", "main"), ("CHAMBER_KMS_KEY_ALIAS", "legacy")] true))
        "kms-key" (some { changed := true, valueType := "string", valueString := "cli" })).1
      = .ok "alias/cli" := by
  decide

end Store
